import Mathlib

/-!
# Verification of the vercel-integration-server environment-variable and
# deployment logic

Shallow embedding of the TypeScript sources of `vezlo/vercel-integration-server`:

* `src/lib/vercel-api.ts` — the `VercelAPIClient` class, in particular
  `setEnvironmentVariables` (batch creation with conflict classification and
  aggregated error reporting) and `deployFromGitHub` (project resolution and
  deployment orchestration);
* `src/lib/error-utils.ts` — `isConflictError`;
* `src/lib/encryption.ts` — AES-CBC password-based encryption via crypto-js,
  modelled with the block cipher and key-derivation function as parameters;
* the deploy route handler (`POST /api/deploy`) — token lookup, environment
  preparation, upstream-error message extraction, HTTP responses;
* the storage layer (`src/lib/storage.ts`) — `getDecryptedToken`,
  `createInstallation`, `updateInstallation`, modelled as operations on an
  explicit store, and the OAuth callback route that drives them.

Remote HTTP calls are modelled by oracles (functions supplied as arguments
giving each outbound call its outcome), and the calls a routine issues are
collected in an explicit log, so that ordering and "exactly once" properties
can be stated.
-/

namespace VercelIntegration

/-! ## JavaScript-semantics helpers

JS truthiness on optional strings (`undefined` and `""` are falsy) and
`String.prototype.includes`, used by the error classification code. -/

/-- JS truthiness of an optional string field: `undefined`/absent and the
empty string are falsy, every other string is truthy. -/
def truthy : Option String → Bool
  | none => false
  | some s => s ≠ ""

/-- JS truthiness of an optional numeric field: absent and `0` are falsy. -/
def truthyNat : Option Nat → Bool
  | none => false
  | some n => n ≠ 0

/-- Is `pat` a prefix of `l`? (component of `String.prototype.includes`). -/
def startsWithList : List Char → List Char → Bool
  | [], _ => true
  | _ :: _, [] => false
  | a :: as, b :: bs => a == b && startsWithList as bs

/-- Does `l` contain `pat` as a contiguous sublist? -/
def containsList (pat : List Char) : List Char → Bool
  | [] => pat.isEmpty
  | l@(_ :: rest) => startsWithList pat l || containsList pat rest

/-- JS `s.includes(pat)`: does `s` contain `pat` as a substring? -/
def strIncludes (s pat : String) : Bool :=
  containsList pat.toList s.toList

/-- JS `[...new Set(xs)]`: deduplication preserving first-occurrence
insertion order. -/
def jsSetDedup (xs : List String) : List String :=
  xs.foldl (fun acc x => if x ∈ acc then acc else acc ++ [x]) []

/-! ## Model of the upstream (axios) error values seen by `vercel-api.ts`

The fields inspected by `setEnvironmentVariables` and by
`error-utils.ts`: `error.response?.status`, `error.response?.data?.error`
(a string or an object with `code`/`message`), `error.response?.data?.message`
and `error.message`. -/

/-- `response.data.error.error`: the nested error the deploy route probes
(a plain string or an object with an optional `message`). -/
inductive InnerError where
  | istr (s : String)
  | iobj (message : Option String)
deriving DecidableEq, Repr

/-- An element of a `response.data.errors` array. `str` models the JS
string conversion `String(e)` used as its last resort. -/
structure RErrItem where
  message : Option String := none
  error : Option String := none
  str : String := ""
deriving DecidableEq, Repr

/-- `response.data.error`: either a plain string or an object carrying an
optional `message`, an optional nested `error`, and an optional `code`. -/
inductive DataError where
  | dstr (s : String)
  | dobj (message : Option String) (inner : Option InnerError)
      (code : Option String)
deriving DecidableEq, Repr

/-- The fields of an object-shaped `response.data`. `keyCount` models
`Object.keys(data).length` and `stringified` models
`JSON.stringify(data)`; neither is derivable from the other fields (the
object may carry keys outside the modelled ones). -/
structure ErrData where
  error : Option DataError := none
  message : Option String := none
  errorDescription : Option String := none
  errors : Option (List RErrItem) := none
  keyCount : Nat := 0
  stringified : String := ""
deriving DecidableEq, Repr

/-- `response.data`: either a plain string body or an object. -/
inductive RespData where
  | rstr (s : String)
  | robj (d : ErrData)
deriving DecidableEq, Repr

/-- `response` of an axios error. -/
structure ErrResponse where
  status : Option Nat := none
  data : Option RespData := none
deriving DecidableEq, Repr

/-- An axios rejection value. `str` models the JS string conversion
`String(error)`, which is not derivable from the modelled fields. -/
structure VercelErr where
  response : Option ErrResponse := none
  message : Option String := none
  str : String := ""
deriving DecidableEq, Repr

namespace VercelErr

/-- `error.response?.status` (optional chaining). -/
def status (e : VercelErr) : Option Nat :=
  e.response.bind (·.status)

/-- `error.response?.data` (optional chaining). -/
def data (e : VercelErr) : Option RespData :=
  e.response.bind (·.data)

/-- `error.response?.data?.error` (optional chaining; reading `.error` of
a string body gives `undefined`). -/
def dataError (e : VercelErr) : Option DataError :=
  match e.data with
  | some (.robj d) => d.error
  | _ => none

/-- `error.response?.data?.error?.code` (optional chaining; `undefined` when
`data.error` is a string, since a string has no `code` property). -/
def dataErrorCode (e : VercelErr) : Option String :=
  match e.dataError with
  | some (.dobj _ _ c) => c
  | _ => none

/-- `error.response?.data?.error?.message` (optional chaining; `undefined`
when `data.error` is a string). -/
def dataErrorMessage (e : VercelErr) : Option String :=
  match e.dataError with
  | some (.dobj m _ _) => m
  | _ => none

/-- `error.response?.data?.message` (optional chaining). -/
def dataMessage (e : VercelErr) : Option String :=
  match e.data with
  | some (.robj d) => d.message
  | _ => none

end VercelErr

/-! ## Conflict classification

`src/lib/vercel-api.ts` lines 275–278 (inline in `setEnvironmentVariables`)
and `src/lib/error-utils.ts` `isConflictError`, lines 48–59. -/

/-- The inline classification of `setEnvironmentVariables`:
`error.response?.status === 409 || (error.response?.status === 400 &&
(error.response?.data?.error?.code === 'ENV_CONFLICT' ||
error.response?.data?.error?.message?.includes('already exists')))`.
`m?.includes(p)` on an absent message is `undefined`, hence falsy. -/
def isConflictInline (e : VercelErr) : Bool :=
  e.status == some 409 ||
    (e.status == some 400 &&
      (e.dataErrorCode == some "ENV_CONFLICT" ||
        (match e.dataErrorMessage with
         | some m => strIncludes m "already exists"
         | none => false)))

/-- `error-utils.ts` `isConflictError`: early return on 409, then the 400
branch checks `errorCode === 'ENV_CONFLICT' || errorMessage?.includes(...)`,
and every other status returns `false`. -/
def isConflictError (e : VercelErr) : Bool :=
  if e.status == some 409 then true
  else if e.status == some 400 then
    e.dataErrorCode == some "ENV_CONFLICT" ||
      (match e.dataErrorMessage with
       | some m => strIncludes m "already exists"
       | none => false)
  else false

/-- The specification's classification, written from its words: a failure is
a conflict iff the HTTP status is 409, or the status is 400 and either the
response body carries the provider conflict code `ENV_CONFLICT` or its error
message contains the substring `"already exists"`; every other failure is a
non-conflict. -/
def isConflictSpec (e : VercelErr) : Prop :=
  e.status = some 409 ∨
    (e.status = some 400 ∧
      (e.dataErrorCode = some "ENV_CONFLICT" ∨
        ∃ m, e.dataErrorMessage = some m ∧ strIncludes m "already exists" = true))

instance (e : VercelErr) : Decidable (isConflictSpec e) := by
  unfold isConflictSpec; infer_instance

/-! ## `extractErrorMessage` (vercel-api.ts lines 225–263)

The helper declared inside `setEnvironmentVariables`. The guard
`if (!error) return 'Unknown error'` corresponds to a `null`/`undefined`
argument and appears at the one call site that can pass one
(`toFailureEntry` below). Lines 242–244 of the source
(`error.response?.data?.error?.message && typeof ... === 'string'`) can
never fire — any state satisfying them already returned in the branch
right above — and are omitted here. -/

/-- The tail of `extractErrorMessage` after the `data.error` block:
`response.data.message`, then `error.message` (unless it contains
`"Request failed"`), then `HTTP <status> error`, then `String(error)`. -/
def extractErrorMessageRest (e : VercelErr) : String :=
  if truthy e.dataMessage then e.dataMessage.getD ""
  else if truthy e.message && !strIncludes (e.message.getD "") "Request failed" then
    e.message.getD ""
  else if truthyNat e.status then "HTTP " ++ toString (e.status.getD 0) ++ " error"
  else e.str

/-- `extractErrorMessage` on a present error value: first the
`response.data.error` block (object with truthy `message`, else plain
non-empty string), then the fallbacks of `extractErrorMessageRest`. -/
def extractErrorMessage (e : VercelErr) : String :=
  match e.dataError with
  | some (.dobj m _ _) =>
      if truthy m then m.getD "" else extractErrorMessageRest e
  | some (.dstr s) =>
      if s ≠ "" then s else extractErrorMessageRest e
  | none => extractErrorMessageRest e

/-! ## `setEnvironmentVariables` (vercel-api.ts lines 216–407)

The batch is fanned out with `Promise.allSettled`; each call is wrapped in
a callback that catches every rejection and returns a result object, so
every promise fulfils and the `rejected` arm of the failure collection
(source lines 319–334) is dead. Outbound HTTP calls are recorded as
`ApiAction`s; the outcome of the `i`-th creation call is given by an
oracle (`none` = created, `some e` = rejected with `e`). -/

/-- The body POSTed to `/v10/projects/{projectId}/env` for one variable. -/
structure EnvPayload where
  key : String
  value : String
  type : String
  target : List String
deriving DecidableEq, Repr

/-- vercel-api.ts lines 217–222: each `(key, value)` entry becomes an
`encrypted` variable targeting production, preview and development. -/
def mkEnvs (vars : List (String × String)) : List EnvPayload :=
  vars.map fun kv =>
    ⟨kv.1, kv.2, "encrypted", ["production", "preview", "development"]⟩

/-- An outbound API call issued by the client. -/
inductive ApiAction where
  | getConfiguration (configurationId : String)
  | getProjects
  | envCreate (projectId : String) (payload : EnvPayload)
  | createDeployment (projectId : String) (repoId : String) (ref : String)
      (target : String)
deriving DecidableEq, Repr

/-- The object returned by the per-variable callback (lines 267–302). -/
structure CallResult where
  success : Bool
  key : String
  error : Option VercelErr := none
  isConflict : Bool := false
  conflictMessage : Option String := none
deriving DecidableEq, Repr

/-- One creation attempt: success, or classification of the rejection as
conflict / other (lines 268–301). -/
def envCallResult (oracle : Nat → Option VercelErr) (i : Nat)
    (env : EnvPayload) : CallResult :=
  match oracle i with
  | none => { success := true, key := env.key }
  | some e =>
      if isConflictInline e then
        { success := false, key := env.key, error := some e,
          isConflict := true, conflictMessage := some (extractErrorMessage e) }
      else
        { success := false, key := env.key, error := some e }

/-- The failure record built from a fulfilled-but-unsuccessful result
(lines 335–346); `undefined` fields read through `||` become their
defaults. -/
structure FailureEntry where
  key : String
  error : String
  status : Option Nat
  isConflict : Bool
  conflictMessage : Option String
deriving DecidableEq, Repr

/-- Lines 317–350: keep only unsuccessful results, extracting message and
status from the stored error (`extractErrorMessage(undefined)` would give
`"Unknown error"`). -/
def toFailureEntry (r : CallResult) : Option FailureEntry :=
  if r.success then none
  else some
    { key := r.key
      error := match r.error with
               | some e => extractErrorMessage e
               | none => "Unknown error"
      status := r.error.bind (·.status)
      isConflict := r.isConflict
      conflictMessage := r.conflictMessage }

/-- The aggregated conflict message (line 369): names the number of
conflicting keys, the keys themselves, and instructs removal/renaming. -/
def conflictErrorMessage (keys : List String) : String :=
  "Cannot set environment variables: " ++ toString keys.length ++
    " variable(s) already exist in your Vercel project:\n\n" ++
    String.intercalate ", " keys ++
    "\n\nPlease remove these existing environment variables from your " ++
    "Vercel project settings before deploying, or use different variable names."

/-- The aggregated non-conflict message (lines 391–400): all failed keys,
then all distinct error messages when there are at most three of them,
else `uniqueErrors[0]` under the label `Most common error`. -/
def otherErrorsMessage (failedKeys : List String) (total : Nat)
    (uniqueErrors : List String) : String :=
  "Failed to set " ++ toString failedKeys.length ++ " of " ++ toString total ++
    " environment variable(s):\n\n" ++ String.intercalate ", " failedKeys ++
    "\n\n" ++
    (if uniqueErrors.length > 0 && uniqueErrors.length ≤ 3 then
      "Errors:\n" ++ String.intercalate "\n" (uniqueErrors.map (fun e => "- " ++ e))
    else if uniqueErrors.length > 0 then
      "Most common error: " ++ uniqueErrors.headD ""
    else "")

/-- The outcomes of the fanned-out creation calls, one per variable in
order (the recursion index selects each call's outcome from the oracle). -/
def batchResultsAux (oracle : Nat → Option VercelErr) :
    Nat → List EnvPayload → List CallResult
  | _, [] => []
  | i, e :: es => envCallResult oracle i e :: batchResultsAux oracle (i + 1) es

/-- The fulfilled results `Promise.allSettled` hands back (line 304). -/
def batchResults (oracle : Nat → Option VercelErr)
    (vars : List (String × String)) : List CallResult :=
  batchResultsAux oracle 0 (mkEnvs vars)

/-- The failure records of a batch (lines 317–350). -/
def batchFailures (oracle : Nat → Option VercelErr)
    (vars : List (String × String)) : List FailureEntry :=
  (batchResults oracle vars).filterMap toFailureEntry

/-- `setEnvironmentVariables`: fan out one creation call per variable,
collect every outcome, and aggregate failures — conflicts take priority;
otherwise the non-conflict failures are reported. Returns the thrown
error message (if any) and the issued calls. -/
def setEnvironmentVariables (oracle : Nat → Option VercelErr)
    (projectId : String) (vars : List (String × String)) :
    Except String Unit × List ApiAction :=
  let envs := mkEnvs vars
  let failures := batchFailures oracle vars
  let actions := envs.map (ApiAction.envCreate projectId)
  if failures.length > 0 then
    let conflicts := failures.filter (·.isConflict)
    let otherErrors := failures.filter (fun f => !f.isConflict)
    if conflicts.length > 0 then
      (.error (conflictErrorMessage (conflicts.map (·.key))), actions)
    else if otherErrors.length > 0 then
      let errorMessages := (otherErrors.map (·.error)).filter (· ≠ "")
      let uniqueErrors := jsSetDedup errorMessages
      (.error (otherErrorsMessage (otherErrors.map (·.key)) envs.length
        uniqueErrors), actions)
    else (.ok (), actions)
  else (.ok (), actions)

/-! ## Encryption (src/lib/encryption.ts)

`encrypt`/`decrypt` wrap `CryptoJS.AES.encrypt(text, key)` and
`CryptoJS.AES.decrypt(ciphertext, key)` in passphrase mode: an 8-byte
random salt, a key/IV derivation from (passphrase, salt), AES-256-CBC
over the PKCS#7-padded plaintext, and the OpenSSL `Salted__` framing.
The model works on byte sequences (`List Nat`); the AES core and the
EVP key derivation are parameters (`E`/`D` and `kdf`), since they are
library internals, with the properties they are used under stated as
hypotheses (the cipher is a length-preserving bijection on 16-byte
blocks). The random salt is likewise a parameter. -/

namespace Encryption

/-- AES block size in bytes. -/
def blockSize : Nat := 16

/-- Byte-wise xor of two byte sequences (truncating to the shorter). -/
def xorBytes (a b : List Nat) : List Nat :=
  List.zipWith (fun x y => x ^^^ y) a b

/-- PKCS#7 padding: append `p` copies of `p`, where
`p = 16 - (len mod 16)` (always between 1 and 16). -/
def pad (msg : List Nat) : List Nat :=
  msg ++ List.replicate (blockSize - msg.length % blockSize)
    (blockSize - msg.length % blockSize)

/-- PKCS#7 unpadding as crypto-js performs it: read the final byte `p`
and discard the last `p` bytes. -/
def unpad (data : List Nat) : List Nat :=
  match data.getLast? with
  | none => data
  | some p => data.take (data.length - p)

/-- Split a byte sequence into 16-byte blocks (fuel-based recursion so
that the definition reduces by evaluation; `toBlocks` supplies enough
fuel). -/
def toBlocksAux : Nat → List Nat → List (List Nat)
  | 0, _ => []
  | _ + 1, [] => []
  | fuel + 1, l => l.take blockSize :: toBlocksAux fuel (l.drop blockSize)

/-- Split a byte sequence into 16-byte blocks. -/
def toBlocks (l : List Nat) : List (List Nat) :=
  toBlocksAux l.length l

/-- CBC encryption: each plaintext block is xored with the previous
ciphertext block (initially the IV) and passed through the cipher. -/
def cbcEncrypt (E : List Nat → List Nat) : List Nat → List (List Nat) → List (List Nat)
  | _, [] => []
  | prev, b :: bs =>
      let c := E (xorBytes b prev)
      c :: cbcEncrypt E c bs

/-- CBC decryption: each ciphertext block is deciphered and xored with
the previous ciphertext block (initially the IV). -/
def cbcDecrypt (D : List Nat → List Nat) : List Nat → List (List Nat) → List (List Nat)
  | _, [] => []
  | prev, c :: cs => xorBytes (D c) prev :: cbcDecrypt D c cs

/-- The bytes of the ASCII string `Salted__` opening an OpenSSL-framed
crypto-js ciphertext. -/
def opensslHeader : List Nat :=
  [0x53, 0x61, 0x6C, 0x74, 0x65, 0x64, 0x5F, 0x5F]

/-- `encrypt(text, key)` of encryption.ts in passphrase mode: derive the
key and IV from the passphrase and the salt, CBC-encrypt the padded
message, and emit `Salted__ ++ salt ++ ciphertext`. -/
def encrypt {κ : Type} (E : κ → List Nat → List Nat)
    (kdf : String → List Nat → κ × List Nat)
    (pass : String) (salt : List Nat) (msg : List Nat) : List Nat :=
  let ki := kdf pass salt
  opensslHeader ++ salt ++ (cbcEncrypt (E ki.1) ki.2 (toBlocks (pad msg))).flatten

/-- `decrypt(ciphertext, key)` of encryption.ts: recover the salt from the
OpenSSL framing, re-derive the key and IV, CBC-decrypt and unpad.
A missing `Salted__` header yields `none` (no salt can be recovered). -/
def decrypt {κ : Type} (D : κ → List Nat → List Nat)
    (kdf : String → List Nat → κ × List Nat)
    (pass : String) (ct : List Nat) : Option (List Nat) :=
  if ct.take 8 = opensslHeader then
    let salt := (ct.drop 8).take 8
    let ki := kdf pass salt
    some (unpad (cbcDecrypt (D ki.1) ki.2 (toBlocks (ct.drop 16))).flatten)
  else none

end Encryption

/-! ## `deployFromGitHub` (vercel-api.ts lines 147–207)

Project resolution, environment-variable setting, repository-id lookup
and deployment creation. The remote side is an oracle (`RemoteWorld`):
the integration configuration and project list returned by the platform,
the per-variable creation outcomes, the GitHub repo lookup, and the
deployment-creation outcome. Transport failures of the two read calls
(`getIntegrationConfiguration`, `getProjects`) would propagate as axios
rejections before anything else happens and are not modelled. -/

/-- A project as returned by `GET /v9/projects`. -/
structure VercelProject where
  id : String
  name : String
deriving DecidableEq, Repr

/-- The integration configuration: `projects` is the optional list of
project ids the user explicitly selected. -/
structure VercelIntegrationConfiguration where
  projects : Option (List String) := none
deriving DecidableEq, Repr

/-- The deployment record returned by `POST /v13/deployments`. -/
structure DeploymentData where
  id : String
  url : String
deriving DecidableEq, Repr

/-- The value returned by `deployFromGitHub` (source lines 203–206). -/
structure DeployResult where
  projectId : String
  projectName : String
  deployment : DeploymentData
deriving DecidableEq, Repr

/-- How a deployment attempt fails: a thrown `new Error(message)`, or an
axios rejection propagated unchanged. -/
inductive DeployFailure where
  | errMsg (s : String)
  | apiErr (e : VercelErr)
deriving DecidableEq, Repr

/-- Outcomes of every remote interaction `deployFromGitHub` can perform. -/
structure RemoteWorld where
  config : VercelIntegrationConfiguration
  projects : List VercelProject
  envOutcome : Nat → Option VercelErr
  envRepoId : Option String
  githubRepo : Except Unit Nat
  deployOutcome : Except VercelErr DeploymentData

/-- `getGitHubRepoId` (lines 103–129): the `ASSISTANT_SERVER_REPO_ID`
environment variable when truthy, else the GitHub API lookup, whose
failure is caught and rethrown as
`Failed to get GitHub repository ID for <repoPath>`. -/
def getGitHubRepoId (envRepoId : Option String) (github : Except Unit Nat)
    (repoPath : String) : Except String String :=
  if truthy envRepoId then .ok (envRepoId.getD "")
  else
    match github with
    | .ok id => .ok (toString id)
    | .error _ => .error ("Failed to get GitHub repository ID for " ++ repoPath)

/-- Lines 168–179: the first explicitly selected project of the
configuration, or else the first project of the account; an empty
account fails. -/
def chooseProject (config : VercelIntegrationConfiguration)
    (projects : List VercelProject) : Except String String :=
  match config.projects with
  | some (p :: _) => .ok p
  | _ =>
      match projects with
      | [] => .error "No projects found in the account"
      | q :: _ => .ok q.id

/-- The tail of `deployFromGitHub` (lines 187–206): look up the
repository id (its failure aborts with the rethrown message), then
create the deployment. -/
def deployRepoAndCreate (world : RemoteWorld)
    (repoPath branch target projectId : String) (log : List ApiAction) :
    Except DeployFailure DeployResult × List ApiAction :=
  match getGitHubRepoId world.envRepoId world.githubRepo repoPath with
  | .error m => (.error (.errMsg m), log)
  | .ok rid =>
      let act := ApiAction.createDeployment projectId rid
        ("refs/heads/" ++ branch) target
      match world.deployOutcome with
      | .error e => (.error (.apiErr e), log ++ [act])
      | .ok d => (.ok ⟨projectId, "assistant-server", d⟩, log ++ [act])

/-- The steps of `deployFromGitHub` after the project is resolved
(lines 181–206): set the environment variables when the mapping is
non-empty (their aggregated failure aborts the deployment), then hand
over to `deployRepoAndCreate`. -/
def deployAfterProject (world : RemoteWorld) (repoPath branch target : String)
    (envVariables : List (String × String)) (projectId : String)
    (log : List ApiAction) : Except DeployFailure DeployResult × List ApiAction :=
  if envVariables.length > 0 then
    let r := setEnvironmentVariables world.envOutcome projectId envVariables
    match r.1 with
    | .error m => (.error (.errMsg m), log ++ r.2)
    | .ok _ => deployRepoAndCreate world repoPath branch target projectId (log ++ r.2)
  else deployRepoAndCreate world repoPath branch target projectId log

/-- `deployFromGitHub`: normalize the repository path, fetch the
integration configuration, resolve the target project (fetching the
account's projects only when none is explicitly selected), then hand
over to `deployAfterProject`. -/
def deployFromGitHub (world : RemoteWorld) (configurationId repo branch : String)
    (envVariables : List (String × String)) (target : String) :
    Except DeployFailure DeployResult × List ApiAction :=
  let repoPath :=
    if repo.startsWith "https://github.com/" then
      repo.drop "https://github.com/".length
    else repo
  let cfgAct := ApiAction.getConfiguration configurationId
  match world.config.projects with
  | some (p :: _) =>
      deployAfterProject world repoPath branch target envVariables p [cfgAct]
  | _ =>
      match world.projects with
      | [] => (.error (.errMsg "No projects found in the account"),
          [cfgAct, .getProjects])
      | q :: _ =>
          deployAfterProject world repoPath branch target envVariables q.id
            [cfgAct, .getProjects]

/-! ## Storage (src/lib/storage.ts) -/

/-- A row of the `accounts` table (the fields the deploy route reads). -/
structure AccountRow where
  id : Nat
  vercel_team_id : Option String := none
  access_token : String
deriving DecidableEq, Repr

/-- A row of the `installations` table (the fields the deploy route
reads). -/
structure InstallationRow where
  uuid : String
  installation_id : String
  account_id : Nat
deriving DecidableEq, Repr

/-- The relational store the routes read. -/
structure Store where
  accounts : List AccountRow
  installations : List InstallationRow

/-- `getInstallationById`: select the installation whose
`installation_id` equals the configuration id (`null` when absent). -/
def getInstallationById (store : Store) (configurationId : String) :
    Option InstallationRow :=
  store.installations.find? (fun r => r.installation_id == configurationId)

/-- `getAccountById`: select the account row by primary key. -/
def getAccountById (store : Store) (id : Nat) : Option AccountRow :=
  store.accounts.find? (fun r => r.id == id)

/-- `getDecryptedToken` (storage.ts lines 59–73): select the encrypted
token of the account, then `try { return decrypt(...) } catch { return
null }` — a decryption failure is caught and becomes `null`, never an
exception. `dec` is the decryption pipeline of encryption.ts, `none`
standing for a throw. -/
def getDecryptedToken (dec : String → Option String) (store : Store)
    (accountId : Nat) : Option String :=
  match getAccountById store accountId with
  | none => none
  | some row => dec row.access_token

/-! ## The deploy route (`POST /api/deploy`)

Modelled after the request body has been parsed (the Zod-validation 400
branch concerns malformed requests and is outside every claim's scope).
The two `uuidv4()` draws are the parameters `migrationSecretKey` and
`jwtSecret`; the `updateInstallation` database writes are covered by the
installation-status machine below. -/

/-- The parsed `config` object of a deployment request. -/
structure DeployConfig where
  supabaseUrl : String
  supabaseServiceRoleKey : String
  dbHost : String
  dbName : String
  dbUser : String
  dbPassword : String
  openaiApiKey : String
deriving DecidableEq, Repr

/-- The flattened JSON body and status of a route response. -/
structure ApiResponse where
  status : Nat
  error : Option String := none
  message : Option String := none
  success : Option Bool := none
  deploymentId : Option String := none
  deploymentUrl : Option String := none
  projectName : Option String := none
  migrationSecretKey : Option String := none
deriving DecidableEq, Repr

/-- Route lines 108–134: the environment variables prepared for the
deployment, in source order. -/
def deployEnvVariables (cfg : DeployConfig)
    (migrationSecretKey jwtSecret : String) : List (String × String) :=
  [("SUPABASE_URL", cfg.supabaseUrl),
   ("SUPABASE_SERVICE_KEY", cfg.supabaseServiceRoleKey),
   ("SUPABASE_DB_HOST", cfg.dbHost),
   ("SUPABASE_DB_NAME", cfg.dbName),
   ("SUPABASE_DB_USER", cfg.dbUser),
   ("SUPABASE_DB_PASSWORD", cfg.dbPassword),
   ("OPENAI_API_KEY", cfg.openaiApiKey),
   ("AI_MODEL", "gpt-4o-mini"),
   ("AI_TEMPERATURE", "0.7"),
   ("AI_MAX_TOKENS", "1000"),
   ("ORGANIZATION_NAME", "Vezlo"),
   ("ASSISTANT_NAME", "Vezlo Assistant"),
   ("MIGRATION_SECRET_KEY", migrationSecretKey),
   ("JWT_SECRET", jwtSecret),
   ("DEFAULT_ADMIN_EMAIL", "admin@vezlo.org"),
   ("DEFAULT_ADMIN_PASSWORD", "admin123")]

/-- The 404 response of route lines 92–95, sent whenever
`getDecryptedToken` yields nothing usable. -/
def accessTokenNotFoundResponse : ApiResponse :=
  { status := 404, error := some "Access token not found",
    message := some ("Access token not found. Please try reinstalling " ++
      "the integration.") }

/-! ## Upstream error message extraction in the deploy route
(route lines 182–268) -/

/-- JS truthiness of the optional `responseData.error` field (an empty
string is falsy, any object is truthy). -/
def dataErrorTruthy : Option DataError → Bool
  | some (.dstr s) => s ≠ ""
  | some (.dobj _ _ _) => true
  | none => false

/-- The default route-level message before any shape matches. -/
def deployDefaultErrorMessage : String :=
  "Deployment failed due to a Vercel API error."

/-- Route lines 219–222: the `code` fallback of the object-shaped error. -/
def extractFromErrorCode (m : Option String) (code : Option String) : String :=
  if truthy code then
    "Vercel API error (" ++ code.getD "" ++ "): " ++
      (if truthy m then m.getD "" else "Unknown error")
  else deployDefaultErrorMessage

/-- Route lines 213–223: the object-shaped `responseData.error` probes, in
order — its `message`, its nested `error.message`, its nested string
`error`, and finally its `code` (paired with
`responseData.error.message || 'Unknown error'`). -/
def extractFromErrorObj (m : Option String) (inner : Option InnerError)
    (code : Option String) : String :=
  if truthy m then m.getD ""
  else
    match inner with
    | some (.iobj im) =>
        if truthy im then im.getD "" else extractFromErrorCode m code
    | some (.istr s) =>
        if s ≠ "" then s else extractFromErrorCode m code
    | none => extractFromErrorCode m code

/-- Route lines 230–235: `e.message || e.error || String(e)` for an
element of a `responseData.errors` array. -/
def errItemText (e : RErrItem) : String :=
  if truthy e.message then e.message.getD ""
  else if truthy e.error then e.error.getD ""
  else e.str

/-- Route lines 195–244: the best-effort extraction of a human-readable
message from the upstream error body, probing the known shapes in
priority order (string body, `.message`, `.error` as string or object,
`.error_description`, the `.errors` array, a bounded stringification). -/
def extractDeployErrorMessage (responseData : Option RespData) : String :=
  match responseData with
  | none => deployDefaultErrorMessage
  | some (.rstr s) =>
      if s ≠ "" then "Vercel API error: " ++ s else deployDefaultErrorMessage
  | some (.robj d) =>
      if truthy d.message then "Vercel API error: " ++ d.message.getD ""
      else if dataErrorTruthy d.error then
        match d.error with
        | some (.dstr s) => "Vercel API error: " ++ s
        | some (.dobj m inner code) => extractFromErrorObj m inner code
        | none => deployDefaultErrorMessage
      else if truthy d.errorDescription then
        "Vercel API error: " ++ d.errorDescription.getD ""
      else if (match d.errors with | some (_ :: _) => true | _ => false) then
        "Vercel API error: " ++ String.intercalate ", "
          (((d.errors.getD []).map errItemText).filter (· ≠ ""))
      else if d.keyCount > 0 then
        if d.stringified.length < 500 then
          "Vercel API error: " ++ d.stringified
        else deployDefaultErrorMessage
      else deployDefaultErrorMessage

/-- `responseData?.error?.code` as read by the 409/400 override. -/
def respDataErrorCode : Option RespData → Option String
  | some (.robj d) =>
      match d.error with
      | some (.dobj _ _ c) => c
      | _ => none
  | _ => none

/-- Route lines 246–262: the status-specific overrides applied after the
shape-based extraction — fixed messages for 401/403/404, a generic
conflict message for 409 (or 400 with `ENV_CONFLICT`) unless the
extracted message already mentions the conflict, and a generic
status-carrying fallback when no shape matched. -/
def deployErrorMessage (status : Option Nat)
    (responseData : Option RespData) : String :=
  let em := extractDeployErrorMessage responseData
  if status == some 401 then
    "Authentication failed. Please reinstall the integration and try again."
  else if status == some 403 then
    "Permission denied. Please check your Vercel integration permissions."
  else if status == some 404 then
    "Repository or project not found. Please check your repository configuration."
  else if status == some 409 ||
      (status == some 400 && respDataErrorCode responseData == some "ENV_CONFLICT") then
    if !strIncludes em "already" && !strIncludes em "exists" &&
        !strIncludes em "ENV_CONFLICT" then
      "A resource already exists (conflict). This may be due to an existing " ++
        "environment variable. The system will attempt to update it."
    else em
  else if truthyNat status && em == deployDefaultErrorMessage then
    "Vercel API returned an error (" ++ toString (status.getD 0) ++
      "). Please try again later."
  else em

/-- Route lines 264–267: an axios-shaped failure always answers 500 with
`error: Deployment failed` and the extracted message. -/
def deployAxiosErrorResponse (e : VercelErr) : ApiResponse :=
  { status := 500, error := some "Deployment failed",
    message := some (deployErrorMessage e.status e.data) }

/-- The deploy route handler after request parsing (route lines 70–282):
look up the installation by configuration id, its account, the decrypted
token; prepare the environment variables; run `deployFromGitHub`; answer
200 with the deployment data and the migration secret on success, the
mapped error response otherwise. -/
def deployPOST (store : Store) (dec : String → Option String)
    (world : RemoteWorld) (defaultRepo : String) (configurationId : String)
    (cfg : DeployConfig) (migrationSecretKey jwtSecret : String) :
    ApiResponse × List ApiAction :=
  match getInstallationById store configurationId with
  | none =>
      ({ status := 404, error := some "Installation not found",
         message := some ("Installation not found. Please ensure you have " ++
           "completed the OAuth flow.") }, [])
  | some inst =>
      match getAccountById store inst.account_id with
      | none =>
          ({ status := 404, error := some "Account not found",
             message := some ("Account not found. Please try reinstalling " ++
               "the integration.") }, [])
      | some _account =>
          let accessToken := getDecryptedToken dec store inst.account_id
          if truthy accessToken then
            let envVariables := deployEnvVariables cfg migrationSecretKey jwtSecret
            let r := deployFromGitHub world inst.installation_id defaultRepo
              "main" envVariables "production"
            match r.1 with
            | .ok res =>
                ({ status := 200, success := some true,
                   deploymentId := some res.deployment.id,
                   deploymentUrl := some res.deployment.url,
                   projectName := some res.projectName,
                   migrationSecretKey := some migrationSecretKey }, r.2)
            | .error (.errMsg s) =>
                ({ status := 500, error := some "Deployment failed",
                   message := some (if s ≠ "" then s
                     else "An unexpected error occurred during deployment.") },
                 r.2)
            | .error (.apiErr e) => (deployAxiosErrorResponse e, r.2)
          else (accessTokenNotFoundResponse, [])

/-! ## Installation status lifecycle

The `installations.status` writes performed anywhere in the system:
`createInstallation` inserts with `status: 'pending'` (storage.ts line 87,
driven by the OAuth callback), and the deploy route updates the row to
`'pending'` before deploying (route line 99) and to `'installed'` after a
successful deployment (route line 151). No operation writes `'failed'`. -/

/-- The status enum of the data model. -/
inductive InstStatus where
  | pending
  | installed
  | failed
deriving DecidableEq, Repr

/-- An installation row reduced to the lifecycle-relevant fields. -/
structure InstState where
  uuid : String
  status : InstStatus
deriving DecidableEq, Repr

/-- The `installations` writes the two endpoints perform. -/
inductive DbWrite where
  | createInst (uuid : String)
  | markPending (uuid : String)
  | markInstalled (uuid : String)
deriving DecidableEq, Repr

/-- Effect of one write on the `installations` table. -/
def applyWrite (s : List InstState) : DbWrite → List InstState
  | .createInst u => s ++ [⟨u, .pending⟩]
  | .markPending u =>
      s.map fun r => if r.uuid == u then { r with status := .pending } else r
  | .markInstalled u =>
      s.map fun r => if r.uuid == u then { r with status := .installed } else r

/-- The states of the `installations` table reachable from an empty table
through the writes of the OAuth callback and deploy endpoints. -/
inductive Reachable : List InstState → Prop where
  | init : Reachable []
  | step {s : List InstState} (w : DbWrite) :
      Reachable s → Reachable (applyWrite s w)

/-! ## Observables used by the theorems -/

/-- The project an outbound call targets, when it targets one. -/
def actionProjectId : ApiAction → Option String
  | .envCreate pid _ => some pid
  | .createDeployment pid _ _ _ => some pid
  | _ => none

/-- The values submitted for key `k` across the environment-variable
creation calls of a log, in order. -/
def envValuesFor (acts : List ApiAction) (k : String) : List String :=
  acts.filterMap fun a =>
    match a with
    | .envCreate _ p => if p.key == k then some p.value else none
    | _ => none

/-! ## Concrete inputs used by witnesses and counterexamples -/

/-- A 409 rejection (the platform refusing a duplicate variable). -/
def wConflictErr : VercelErr :=
  { response := some { status := some 409 } }

/-- A 500 rejection with a plain `data.message`. -/
def wMsgErr (s : String) : VercelErr :=
  { response := some
      { status := some 500, data := some (.robj { message := some s }) } }

/-- A two-variable batch. -/
def wVars1 : List (String × String) :=
  [("OPENAI_API_KEY", "sk-1"), ("SUPABASE_URL", "https://x.supabase.co")]

/-- First call conflicts, second fails for another reason. -/
def wOracle1 : Nat → Option VercelErr := fun i =>
  if i == 0 then some wConflictErr else some (wMsgErr "server exploded")

/-- A five-variable batch. -/
def wVars2 : List (String × String) :=
  [("K1", "a"), ("K2", "b"), ("K3", "c"), ("K4", "d"), ("K5", "e")]

/-- Five non-conflict failures carrying four distinct messages, the most
frequent of which (`msg D`, twice) is not the first distinct one. -/
def wOracle2 : Nat → Option VercelErr := fun i =>
  some (wMsgErr (if i == 0 then "msg A" else if i == 1 then "msg B"
    else if i == 2 then "msg C" else "msg D"))

/-- An upstream 401 whose body carries an extractable message. -/
def wErr401 : VercelErr :=
  { response := some
      { status := some 401,
        data := some (.robj { message := some "Invalid token" }) } }

/-! # Theorems -/

/-! ## Helper lemmas -/

lemma envCallResult_key (oracle : Nat → Option VercelErr) (i : Nat)
    (e : EnvPayload) : (envCallResult oracle i e).key = e.key := by
  unfold envCallResult
  cases oracle i with
  | none => rfl
  | some err =>
      dsimp only
      split <;> rfl

lemma toFailureEntry_key {r : CallResult} {f : FailureEntry}
    (h : toFailureEntry r = some f) : f.key = r.key := by
  unfold toFailureEntry at h
  split at h
  · exact absurd h (by simp)
  · cases h
    rfl

lemma batchResultsAux_keys (oracle : Nat → Option VercelErr) :
    ∀ (i : Nat) (ps : List EnvPayload),
      (batchResultsAux oracle i ps).map (·.key) = ps.map (·.key)
  | _, [] => rfl
  | i, e :: es => by
      simp [batchResultsAux, envCallResult_key, batchResultsAux_keys oracle (i + 1) es]

lemma batchResults_keys (oracle : Nat → Option VercelErr)
    (vars : List (String × String)) :
    (batchResults oracle vars).map (·.key) = vars.map Prod.fst := by
  unfold batchResults mkEnvs
  rw [batchResultsAux_keys]
  simp

lemma filterMap_toFailureEntry_keys_sublist :
    ∀ (l : List CallResult),
      List.Sublist ((l.filterMap toFailureEntry).map (·.key)) (l.map (·.key))
  | [] => List.Sublist.refl _
  | r :: rs => by
      cases h : toFailureEntry r with
      | none =>
          have hs := (filterMap_toFailureEntry_keys_sublist rs).cons (r.key)
          simpa [List.filterMap_cons, h] using hs
      | some f =>
          have hs := (filterMap_toFailureEntry_keys_sublist rs).cons₂ (f.key)
          simpa [List.filterMap_cons, h, toFailureEntry_key h] using hs

lemma batchFailures_keys_nodup (oracle : Nat → Option VercelErr)
    {vars : List (String × String)} (hnd : (vars.map Prod.fst).Nodup) :
    ((batchFailures oracle vars).map (·.key)).Nodup := by
  refine (filterMap_toFailureEntry_keys_sublist _).nodup ?_
  rw [batchResults_keys]
  exact hnd

lemma key_not_mem_filter_of_nodup :
    ∀ (l : List FailureEntry), ((l.map (·.key)).Nodup) →
      ∀ f ∈ l, f.isConflict = false →
        f.key ∉ (l.filter (·.isConflict)).map (·.key)
  | [], _, _, hf, _ => absurd hf (by simp)
  | g :: t, h, f, hf, hnc => by
      have hcons : (g.key :: t.map (·.key)).Nodup := by simpa using h
      have hg : g.key ∉ t.map (·.key) := (List.nodup_cons.mp hcons).1
      have ht : (t.map (·.key)).Nodup := (List.nodup_cons.mp hcons).2
      rcases List.mem_cons.mp hf with rfl | hft
      · rw [List.filter_cons, if_neg (by simp [hnc])]
        intro hmem
        rcases List.mem_map.mp hmem with ⟨e, he, hek⟩
        exact hg (List.mem_map.mpr ⟨e, (List.mem_filter.mp he).1, hek⟩)
      · have ih := key_not_mem_filter_of_nodup t ht f hft hnc
        rw [List.filter_cons]
        by_cases hgc : g.isConflict = true
        · rw [if_pos (by simp [hgc])]
          intro hmem
          rw [List.map_cons] at hmem
          rcases List.mem_cons.mp hmem with hk | hk
          · exact hg (hk ▸ List.mem_map.mpr ⟨f, hft, rfl⟩)
          · exact ih hk
        · rw [if_neg (by simp [hgc])]
          exact ih

/-! ## C9 — installation status lifecycle -/

/-- C9: every installation record is created with status `pending`, is
moved to `installed` only by the post-deployment update, and no
operation of the system sets `failed`: in every reachable state of the
`installations` table, each row's status is `pending` or `installed`. -/
theorem installation_status_pending_or_installed
    {s : List InstState} (h : Reachable s) :
    ∀ r ∈ s, r.status = InstStatus.pending ∨ r.status = InstStatus.installed := by
  induction h with
  | init => simp
  | step w _ ih =>
      intro r hr
      cases w with
      | createInst u =>
          simp only [applyWrite] at hr
          rcases List.mem_append.mp hr with hmem | hmem
          · exact ih r hmem
          · have := List.mem_singleton.mp hmem
            subst this
            exact Or.inl rfl
      | markPending u =>
          simp only [applyWrite] at hr
          rcases List.mem_map.mp hr with ⟨r0, hr0, rfl⟩
          split
          · exact Or.inl rfl
          · exact ih r0 hr0
      | markInstalled u =>
          simp only [applyWrite] at hr
          rcases List.mem_map.mp hr with ⟨r0, hr0, rfl⟩
          split
          · exact Or.inr rfl
          · exact ih r0 hr0

/-- Witness for C9: a concrete trace (OAuth creation followed by a
successful deployment) reaches a state on which the invariant holds. -/
theorem installation_status_pending_or_installed_witness :
    Reachable [⟨"inst-1", InstStatus.installed⟩] ∧
      ∀ r ∈ [(⟨"inst-1", InstStatus.installed⟩ : InstState)],
        r.status = InstStatus.pending ∨ r.status = InstStatus.installed := by
  have h2 := Reachable.step (DbWrite.markInstalled "inst-1")
    (Reachable.step (DbWrite.createInst "inst-1") Reachable.init)
  have hr : Reachable [⟨"inst-1", InstStatus.installed⟩] := by
    simpa [applyWrite] using h2
  exact ⟨hr, installation_status_pending_or_installed hr⟩

/-! ## C3 — conflict classification -/

/-- C3: a failed creation call is classified as a conflict (by the inline
check of `setEnvironmentVariables` and equally by `isConflictError` of
error-utils.ts) if and only if its HTTP status is 409, or it is 400 and
the body carries the `ENV_CONFLICT` code or an error message containing
`"already exists"`; every other failure is a non-conflict. -/
theorem conflict_classification_matches_spec (e : VercelErr) :
    (isConflictInline e = true ↔ isConflictSpec e) ∧
    (isConflictError e = true ↔ isConflictSpec e) := by
  unfold isConflictInline isConflictError isConflictSpec
  by_cases h409 : e.status = some 409
  · simp [h409]
  · by_cases h400 : e.status = some 400
    · cases hm : e.dataErrorMessage <;>
        simp [h409, h400, hm, beq_iff_eq]
    · cases hm : e.dataErrorMessage <;>
        simp [h409, h400, hm, beq_iff_eq]

/-! ## C1 — conflicts take priority in the aggregated error -/

/-- C1: whenever at least one failure of the batch is classified as a
conflict, `setEnvironmentVariables` raises the single aggregated conflict
error: its message is the conflict template over exactly the conflicting
keys — every conflicting key is named, no non-conflict key is — and it
contains the phrase `"already exist"`, also when non-conflict failures
occurred in the same batch. -/
theorem setEnvironmentVariables_conflict_priority
    (oracle : Nat → Option VercelErr) (projectId : String)
    (vars : List (String × String))
    (hnd : (vars.map Prod.fst).Nodup)
    (hconf : (batchFailures oracle vars).filter (·.isConflict) ≠ []) :
    ((setEnvironmentVariables oracle projectId vars).1 =
      Except.error (conflictErrorMessage
        (((batchFailures oracle vars).filter (·.isConflict)).map (·.key)))) ∧
    (∀ f ∈ batchFailures oracle vars, f.isConflict = true →
      f.key ∈ ((batchFailures oracle vars).filter (·.isConflict)).map (·.key)) ∧
    (∀ f ∈ batchFailures oracle vars, f.isConflict = false →
      f.key ∉ ((batchFailures oracle vars).filter (·.isConflict)).map (·.key)) ∧
    (∃ pre post,
      conflictErrorMessage
        (((batchFailures oracle vars).filter (·.isConflict)).map (·.key)) =
        pre ++ "already exist" ++ post) := by
  refine ⟨?_, ?_, ?_, ?_⟩
  · have hfail : batchFailures oracle vars ≠ [] := by
      intro h0
      exact hconf (by simp [h0])
    have hlen : 0 < (batchFailures oracle vars).length := List.length_pos.mpr hfail
    have hclen : 0 < ((batchFailures oracle vars).filter (·.isConflict)).length :=
      List.length_pos.mpr hconf
    simp only [setEnvironmentVariables]
    rw [if_pos hlen, if_pos hclen]
  · intro f hf hc
    exact List.mem_map.mpr ⟨f, List.mem_filter.mpr ⟨hf, by simp [hc]⟩, rfl⟩
  · intro f hf hc
    exact key_not_mem_filter_of_nodup _ (batchFailures_keys_nodup oracle hnd) f hf hc
  · refine ⟨"Cannot set environment variables: " ++
      toString (((batchFailures oracle vars).filter (·.isConflict)).map (·.key)).length ++
      " variable(s) ",
      " in your Vercel project:\n\n" ++
        String.intercalate ", "
          (((batchFailures oracle vars).filter (·.isConflict)).map (·.key)) ++
        "\n\nPlease remove these existing environment variables from your " ++
        "Vercel project settings before deploying, or use different variable names.",
      ?_⟩
    have hsplit : (" variable(s) already exist in your Vercel project:\n\n" : String) =
        " variable(s) " ++ "already exist" ++ " in your Vercel project:\n\n" := rfl
    unfold conflictErrorMessage
    rw [hsplit]
    simp only [String.append_assoc]

/-- Witness for C1: a batch whose first call conflicts (409) and whose
second fails with a 500; the aggregated error is the conflict template
over the conflicting key only. -/
theorem setEnvironmentVariables_conflict_priority_witness :
    (wVars1.map Prod.fst).Nodup ∧
    (batchFailures wOracle1 wVars1).filter (·.isConflict) ≠ [] ∧
    (setEnvironmentVariables wOracle1 "proj" wVars1).1 =
      Except.error (conflictErrorMessage
        (((batchFailures wOracle1 wVars1).filter (·.isConflict)).map (·.key))) :=
  ⟨by decide, by decide,
    (setEnvironmentVariables_conflict_priority wOracle1 "proj" wVars1
      (by decide) (by decide)).1⟩

/-! ## C2 — non-conflict aggregation shows the first distinct message,
not the most frequent one -/

/-- C2 evidence: on a batch of five non-conflict failures whose messages
are `msg A, msg B, msg C, msg D, msg D` (four distinct messages, so more
than three), the raised error ends in `Most common error: msg A` — the
first distinct message — although `msg D` is strictly more frequent and
is not shown. -/
theorem setEnvironmentVariables_most_common_is_first_distinct :
    (setEnvironmentVariables wOracle2 "proj" wVars2).1 =
      Except.error ("Failed to set 5 of 5 environment variable(s):\n\n" ++
        "K1, K2, K3, K4, K5\n\nMost common error: msg A") ∧
    (jsSetDedup (((batchFailures wOracle2 wVars2).map (·.error)).filter
      (· ≠ ""))).length > 3 ∧
    ((batchFailures wOracle2 wVars2).map (·.error)).count "msg D" = 2 ∧
    ((batchFailures wOracle2 wVars2).map (·.error)).count "msg A" = 1 ∧
    strIncludes ("Failed to set 5 of 5 environment variable(s):\n\n" ++
      "K1, K2, K3, K4, K5\n\nMost common error: msg A") "msg D" = false :=
  ⟨by rfl, by decide, by decide, by decide, by decide⟩

/-! ## C4 — an all-success batch issues one call per key and returns
normally -/

lemma batchResultsAux_success (oracle : Nat → Option VercelErr) :
    ∀ (i : Nat) (ps : List EnvPayload),
      (∀ j, j < ps.length → oracle (i + j) = none) →
      ∀ r ∈ batchResultsAux oracle i ps, r.success = true
  | _, [], _, r, hr => absurd hr (by simp [batchResultsAux])
  | i, e :: es, hall, r, hr => by
      rw [batchResultsAux] at hr
      rcases List.mem_cons.mp hr with rfl | hr2
      · have h0 : oracle i = none := by simpa using hall 0 (by simp)
        simp [envCallResult, h0]
      · refine batchResultsAux_success oracle (i + 1) es ?_ r hr2
        intro j hj
        have h1 := hall (j + 1) (by simpa using Nat.succ_lt_succ hj)
        have hidx : i + 1 + j = i + (j + 1) := by omega
        rw [hidx]
        exact h1

lemma filter_key_length_one :
    ∀ (l : List EnvPayload), ((l.map (·.key)).Nodup) →
      ∀ k ∈ l.map (·.key), (l.filter (fun p => p.key == k)).length = 1
  | [], _, k, hk => absurd hk (by simp)
  | p :: t, h, k, hk => by
      have hcons : (p.key :: t.map (·.key)).Nodup := by simpa using h
      have hp := (List.nodup_cons.mp hcons).1
      have ht := (List.nodup_cons.mp hcons).2
      rw [List.map_cons] at hk
      rw [List.filter_cons]
      rcases List.mem_cons.mp hk with rfl | hkt
      · rw [if_pos (by simp)]
        have hnil : t.filter (fun q => q.key == p.key) = [] := by
          refine List.filter_eq_nil_iff.mpr ?_
          intro q hq hbeq
          refine hp ?_
          have hqe : q.key = p.key := by simpa using hbeq
          exact hqe ▸ List.mem_map.mpr ⟨q, hq, rfl⟩
        simp [hnil]
      · have hk_ne : ¬(p.key == k) = true := by
          intro hbeq
          have hpe : p.key = k := by simpa using hbeq
          rcases List.mem_map.mp hkt with ⟨q, hq, hqk⟩
          refine hp ?_
          rw [hpe]
          exact hqk ▸ List.mem_map.mpr ⟨q, hq, rfl⟩
        rw [if_neg hk_ne]
        exact filter_key_length_one t ht k hkt

lemma mkEnvs_keys (vars : List (String × String)) :
    (mkEnvs vars).map (·.key) = vars.map Prod.fst := by
  unfold mkEnvs
  simp

/-- C4: when every creation call of the batch succeeds,
`setEnvironmentVariables` returns normally with no result value, having
issued exactly one creation call per key, each as type `encrypted`
targeting production, preview and development. -/
theorem setEnvironmentVariables_success
    (oracle : Nat → Option VercelErr) (projectId : String)
    (vars : List (String × String))
    (hnd : (vars.map Prod.fst).Nodup)
    (hok : ∀ i, i < vars.length → oracle i = none) :
    (setEnvironmentVariables oracle projectId vars =
      (Except.ok (), (mkEnvs vars).map (ApiAction.envCreate projectId))) ∧
    (∀ k ∈ vars.map Prod.fst,
      ((mkEnvs vars).filter (fun p => p.key == k)).length = 1) ∧
    (∀ p ∈ mkEnvs vars,
      p.type = "encrypted" ∧
        p.target = ["production", "preview", "development"]) := by
  refine ⟨?_, ?_, ?_⟩
  · have hsucc : ∀ r ∈ batchResults oracle vars, r.success = true := by
      refine batchResultsAux_success oracle 0 (mkEnvs vars) ?_
      intro j hj
      rw [Nat.zero_add]
      refine hok j ?_
      have hlen : (mkEnvs vars).length = vars.length := by
        unfold mkEnvs
        exact List.length_map _ _
      omega
    have hfail : batchFailures oracle vars = [] := by
      unfold batchFailures
      refine List.filterMap_eq_nil_iff.mpr ?_
      intro r hr
      unfold toFailureEntry
      rw [if_pos (hsucc r hr)]
    simp [setEnvironmentVariables, hfail]
  · intro k hk
    refine filter_key_length_one (mkEnvs vars) ?_ k ?_
    · rw [mkEnvs_keys]
      exact hnd
    · rw [mkEnvs_keys]
      exact hk
  · intro p hp
    rcases List.mem_map.mp hp with ⟨kv, _, rfl⟩
    exact ⟨rfl, rfl⟩

/-- Witness for C4: a two-variable batch with an all-success oracle. -/
theorem setEnvironmentVariables_success_witness :
    ((([("A", "1"), ("B", "2")] : List (String × String)).map Prod.fst).Nodup) ∧
    setEnvironmentVariables (fun _ => none) "proj" [("A", "1"), ("B", "2")] =
      (Except.ok (), (mkEnvs [("A", "1"), ("B", "2")]).map
        (ApiAction.envCreate "proj")) :=
  ⟨by decide,
    (setEnvironmentVariables_success (fun _ => none) "proj"
      [("A", "1"), ("B", "2")] (by decide) (fun _ _ => rfl)).1⟩

/-! ## C5 — encryption round trip -/

namespace Encryption

lemma xorBytes_length (a b : List Nat) :
    (xorBytes a b).length = min a.length b.length := by
  simp [xorBytes]

lemma xorBytes_cancel :
    ∀ (a b : List Nat), a.length ≤ b.length → xorBytes (xorBytes a b) b = a
  | [], _, _ => by simp [xorBytes]
  | _ :: _, [], h => absurd h (by simp)
  | x :: xs, y :: ys, h => by
      have ih := xorBytes_cancel xs ys (by simpa using h)
      simp only [xorBytes, List.zipWith_cons_cons] at ih ⊢
      rw [Nat.xor_assoc, Nat.xor_self, Nat.xor_zero, ih]

lemma pad_length_dvd (m : List Nat) : blockSize ∣ (pad m).length := by
  unfold pad blockSize
  have hd := Nat.div_add_mod m.length 16
  have hlt : m.length % 16 < 16 := Nat.mod_lt _ (by norm_num)
  simp only [List.length_append, List.length_replicate]
  exact ⟨m.length / 16 + 1, by omega⟩

lemma unpad_pad (m : List Nat) : unpad (pad m) = m := by
  have hbs : blockSize = 16 := rfl
  have hlt : m.length % blockSize < blockSize := by
    rw [hbs]
    exact Nat.mod_lt _ (by norm_num)
  have hp1 : 1 ≤ blockSize - m.length % blockSize := by omega
  unfold unpad pad
  rw [List.getLast?_append]
  have hrep : (List.replicate (blockSize - m.length % blockSize)
      (blockSize - m.length % blockSize)).getLast? =
      some (blockSize - m.length % blockSize) := by
    cases hq : blockSize - m.length % blockSize with
    | zero => omega
    | succ q => simp [List.getLast?_replicate]
  rw [hrep]
  simp only [Option.or_some]
  have hlen : (m ++ List.replicate (blockSize - m.length % blockSize)
      (blockSize - m.length % blockSize)).length =
      m.length + (blockSize - m.length % blockSize) := by
    simp
  rw [hlen, Nat.add_sub_cancel]
  have := List.take_left m (List.replicate (blockSize - m.length % blockSize)
    (blockSize - m.length % blockSize))
  exact this

lemma toBlocksAux_fuel :
    ∀ (f1 f2 : Nat) (l : List Nat), l.length ≤ f1 → l.length ≤ f2 →
      toBlocksAux f1 l = toBlocksAux f2 l
  | 0, f2, l, h1, _ => by
      have : l = [] := List.eq_nil_of_length_eq_zero (by omega)
      subst this
      cases f2 <;> rfl
  | _ + 1, 0, l, _, h2 => by
      have : l = [] := List.eq_nil_of_length_eq_zero (by omega)
      subst this
      rfl
  | f1 + 1, f2 + 1, l, h1, h2 => by
      cases l with
      | nil => rfl
      | cons x xs =>
          show (x :: xs).take blockSize :: toBlocksAux f1 ((x :: xs).drop blockSize) =
            (x :: xs).take blockSize :: toBlocksAux f2 ((x :: xs).drop blockSize)
          have hbs : blockSize = 16 := rfl
          rw [toBlocksAux_fuel f1 f2 ((x :: xs).drop blockSize)
            (by simp [hbs] at h1 ⊢; omega) (by simp [hbs] at h2 ⊢; omega)]

lemma toBlocks_cons_eq (l : List Nat) (h : l ≠ []) :
    toBlocks l = l.take blockSize :: toBlocks (l.drop blockSize) := by
  unfold toBlocks
  cases hl : l with
  | nil => exact absurd hl h
  | cons x xs =>
      show (x :: xs).take blockSize :: toBlocksAux xs.length ((x :: xs).drop blockSize) =
        (x :: xs).take blockSize :: toBlocksAux ((x :: xs).drop blockSize).length
          ((x :: xs).drop blockSize)
      have hbs : blockSize = 16 := rfl
      rw [toBlocksAux_fuel xs.length ((x :: xs).drop blockSize).length _
        (by simp [hbs]) (le_refl _)]

lemma flatten_toBlocks (l : List Nat) : (toBlocks l).flatten = l := by
  have key : ∀ (n : Nat) (l : List Nat), l.length ≤ n → (toBlocks l).flatten = l := by
    intro n
    induction n with
    | zero =>
        intro l h
        have : l = [] := List.eq_nil_of_length_eq_zero (by omega)
        subst this
        rfl
    | succ n ih =>
        intro l h
        cases hl : l with
        | nil => rfl
        | cons x xs =>
            subst hl
            rw [toBlocks_cons_eq _ (by simp), List.flatten_cons]
            have hbs : blockSize = 16 := rfl
            rw [ih ((x :: xs).drop blockSize) (by simp [hbs] at h ⊢; omega)]
            exact List.take_append_drop _ _
  exact key l.length l (le_refl _)

lemma toBlocks_blocks_len (l : List Nat) (hd : blockSize ∣ l.length) :
    ∀ b ∈ toBlocks l, b.length = blockSize := by
  have key : ∀ (n : Nat) (l : List Nat), l.length ≤ n → blockSize ∣ l.length →
      ∀ b ∈ toBlocks l, b.length = blockSize := by
    intro n
    induction n with
    | zero =>
        intro l h _ b hb
        have : l = [] := List.eq_nil_of_length_eq_zero (by omega)
        subst this
        exact absurd hb (by simp [toBlocks, toBlocksAux])
    | succ n ih =>
        intro l h hdvd b hb
        cases hl : l with
        | nil =>
            subst hl
            exact absurd hb (by simp [toBlocks, toBlocksAux])
        | cons x xs =>
            subst hl
            rw [toBlocks_cons_eq _ (by simp)] at hb
            have hbs : blockSize = 16 := rfl
            have hge : 16 ≤ (x :: xs).length := by
              rcases hdvd with ⟨c, hc⟩
              rw [hbs] at hc
              rcases Nat.eq_zero_or_pos c with rfl | hcpos
              · simp at hc
              · have := Nat.le_mul_of_pos_right 16 hcpos
                omega
            rcases List.mem_cons.mp hb with rfl | hb2
            · simp [hbs] at hge ⊢
              omega
            · refine ih ((x :: xs).drop blockSize) (by simp [hbs] at h ⊢; omega) ?_ b hb2
              rcases hdvd with ⟨c, hc⟩
              refine ⟨c - 1, ?_⟩
              rw [hbs] at hc ⊢
              simp [hbs] at hc ⊢
              omega
  exact key l.length l (le_refl _) hd

lemma toBlocks_flatten_of_blocks :
    ∀ (bs : List (List Nat)), (∀ b ∈ bs, b.length = blockSize) →
      toBlocks bs.flatten = bs
  | [], _ => rfl
  | b :: bs, h => by
      have hb : b.length = blockSize := h b (by simp)
      have hbs : blockSize = 16 := rfl
      have hbne : b ≠ [] := by
        intro h0
        rw [h0] at hb
        simp [hbs] at hb
      rw [List.flatten_cons]
      rw [toBlocks_cons_eq _ (by
        intro h0
        rcases List.append_eq_nil.mp h0 with ⟨h1, _⟩
        exact hbne h1)]
      rw [← hb, List.take_left, List.drop_left]
      rw [toBlocks_flatten_of_blocks bs (fun c hc => h c (by simp [hc]))]

lemma cbcEncrypt_blocks_len (E : List Nat → List Nat)
    (hE : ∀ b, b.length = blockSize → (E b).length = blockSize) :
    ∀ (bs : List (List Nat)) (prev : List Nat),
      (∀ b ∈ bs, b.length = blockSize) → prev.length = blockSize →
      ∀ c ∈ cbcEncrypt E prev bs, c.length = blockSize
  | [], _, _, _, c, hc => absurd hc (by simp [cbcEncrypt])
  | b :: bs, prev, hall, hprev, c, hc => by
      rw [cbcEncrypt] at hc
      have hxor : (xorBytes b prev).length = blockSize := by
        rw [xorBytes_length, hall b (by simp), hprev]
        simp
      have henc : (E (xorBytes b prev)).length = blockSize := hE _ hxor
      rcases List.mem_cons.mp hc with rfl | hc2
      · exact henc
      · exact cbcEncrypt_blocks_len E hE bs (E (xorBytes b prev))
          (fun d hd => hall d (by simp [hd])) henc c hc2

lemma cbcDecrypt_cbcEncrypt (E D : List Nat → List Nat)
    (hDE : ∀ b, b.length = blockSize → D (E b) = b)
    (hE : ∀ b, b.length = blockSize → (E b).length = blockSize) :
    ∀ (bs : List (List Nat)) (prev : List Nat),
      (∀ b ∈ bs, b.length = blockSize) → prev.length = blockSize →
      cbcDecrypt D prev (cbcEncrypt E prev bs) = bs
  | [], _, _, _ => rfl
  | b :: bs, prev, hall, hprev => by
      rw [cbcEncrypt, cbcDecrypt]
      have hb : b.length = blockSize := hall b (by simp)
      have hxor : (xorBytes b prev).length = blockSize := by
        rw [xorBytes_length, hb, hprev]
        simp
      have hD : D (E (xorBytes b prev)) = xorBytes b prev := hDE _ hxor
      rw [hD, xorBytes_cancel b prev (by rw [hb, hprev])]
      rw [cbcDecrypt_cbcEncrypt E D hDE hE bs (E (xorBytes b prev))
        (fun d hd => hall d (by simp [hd])) (hE _ hxor)]

/-- C5: decrypting the result of encrypting a message with the same
passphrase recovers the message, for every message, salt, key-derivation
function, and block cipher that is a length-preserving bijection on
16-byte blocks (as AES-256 is). -/
theorem decrypt_encrypt {κ : Type} (E D : κ → List Nat → List Nat)
    (kdf : String → List Nat → κ × List Nat) (pass : String)
    (salt msg : List Nat)
    (hsalt : salt.length = 8)
    (hiv : ((kdf pass salt).2).length = blockSize)
    (hDE : ∀ k b, b.length = blockSize → D k (E k b) = b)
    (hE : ∀ k b, b.length = blockSize → (E k b).length = blockSize) :
    decrypt D kdf pass (encrypt E kdf pass salt msg) = some msg := by
  unfold encrypt decrypt
  have hhdr : opensslHeader.length = 8 := rfl
  set ct := (cbcEncrypt (E (kdf pass salt).1) (kdf pass salt).2
    (toBlocks (pad msg))).flatten with hct
  have htake8 : (opensslHeader ++ salt ++ ct).take 8 = opensslHeader := by
    rw [List.append_assoc, ← hhdr, List.take_left]
  have hdrop8 : (opensslHeader ++ salt ++ ct).drop 8 = salt ++ ct := by
    rw [List.append_assoc, ← hhdr, List.drop_left]
  have hsalt' : ((opensslHeader ++ salt ++ ct).drop 8).take 8 = salt := by
    rw [hdrop8, ← hsalt, List.take_left]
  have hdrop16 : (opensslHeader ++ salt ++ ct).drop 16 = ct := by
    have hlen : (opensslHeader ++ salt).length = 16 := by
      rw [List.length_append, hhdr, hsalt]
    rw [← hlen, List.drop_left]
  rw [if_pos htake8, hsalt', hdrop16]
  have hblocks : ∀ b ∈ toBlocks (pad msg), b.length = blockSize :=
    toBlocks_blocks_len _ (pad_length_dvd msg)
  have hctblocks : ∀ c ∈ cbcEncrypt (E (kdf pass salt).1) (kdf pass salt).2
      (toBlocks (pad msg)), c.length = blockSize :=
    cbcEncrypt_blocks_len _ (hE _) _ _ hblocks hiv
  rw [hct, toBlocks_flatten_of_blocks _ hctblocks]
  show some (unpad (cbcDecrypt (D (kdf pass salt).1) (kdf pass salt).2
    (cbcEncrypt (E (kdf pass salt).1) (kdf pass salt).2
      (toBlocks (pad msg)))).flatten) = some msg
  rw [cbcDecrypt_cbcEncrypt _ _ (hDE _) (hE _) _ _ hblocks hiv]
  rw [flatten_toBlocks, unpad_pad]

/-- Witness for C5: the identity cipher on blocks (a bijection) and a
constant key-derivation function on a concrete three-byte message. -/
theorem decrypt_encrypt_witness :
    (List.replicate 8 0 : List Nat).length = 8 ∧
    decrypt (fun (_ : Unit) b => b) (fun _ _ => ((), List.replicate 16 0)) "pass"
      (encrypt (fun (_ : Unit) b => b) (fun _ _ => ((), List.replicate 16 0))
        "pass" (List.replicate 8 0) [1, 2, 3]) = some [1, 2, 3] :=
  ⟨by decide,
    decrypt_encrypt (fun _ b => b) (fun _ b => b)
      (fun _ _ => ((), List.replicate 16 0)) "pass" (List.replicate 8 0) [1, 2, 3]
      (by decide) (by decide) (fun _ _ _ => rfl) (fun _ _ h => h)⟩

end Encryption

/-! ## C6 — project resolution in `deployFromGitHub` -/

lemma setEnvironmentVariables_actions (oracle : Nat → Option VercelErr)
    (projectId : String) (vars : List (String × String)) :
    (setEnvironmentVariables oracle projectId vars).2 =
      (mkEnvs vars).map (ApiAction.envCreate projectId) := by
  unfold setEnvironmentVariables
  dsimp only
  split
  · split
    · rfl
    · split
      · rfl
      · rfl
  · rfl

lemma deployRepoAndCreate_actions (world : RemoteWorld)
    (repoPath branch target projectId : String) (log : List ApiAction) :
    ∀ a ∈ (deployRepoAndCreate world repoPath branch target projectId log).2,
      a ∈ log ∨ actionProjectId a = some projectId := by
  intro a ha
  unfold deployRepoAndCreate at ha
  split at ha
  · exact Or.inl ha
  · split at ha <;>
    · rcases List.mem_append.mp ha with h | h
      · exact Or.inl h
      · right
        have := List.mem_singleton.mp h
        subst this
        rfl

lemma deployAfterProject_actions (world : RemoteWorld)
    (repoPath branch target : String) (envVariables : List (String × String))
    (projectId : String) (log : List ApiAction) :
    ∀ a ∈ (deployAfterProject world repoPath branch target envVariables
        projectId log).2,
      a ∈ log ∨ actionProjectId a = some projectId := by
  intro a ha
  unfold deployAfterProject at ha
  dsimp only at ha
  have henv : ∀ b, b ∈ (setEnvironmentVariables world.envOutcome projectId
      envVariables).2 → actionProjectId b = some projectId := by
    intro b hb
    rw [setEnvironmentVariables_actions] at hb
    rcases List.mem_map.mp hb with ⟨p, _, rfl⟩
    rfl
  split at ha
  · split at ha
    · rcases List.mem_append.mp ha with h | h
      · exact Or.inl h
      · exact Or.inr (henv a h)
    · rcases deployRepoAndCreate_actions world repoPath branch target projectId
        _ a ha with h | h
      · rcases List.mem_append.mp h with h2 | h2
        · exact Or.inl h2
        · exact Or.inr (henv a h2)
      · exact Or.inr h
  · exact deployRepoAndCreate_actions world repoPath branch target projectId
      log a ha

lemma deployRepoAndCreate_ok (world : RemoteWorld)
    (repoPath branch target projectId : String) (log : List ApiAction)
    (res : DeployResult)
    (h : (deployRepoAndCreate world repoPath branch target projectId log).1 =
      Except.ok res) : res.projectId = projectId := by
  unfold deployRepoAndCreate at h
  split at h
  · exact absurd h (by simp)
  · split at h
    · exact absurd h (by simp)
    · cases h
      rfl

lemma deployAfterProject_ok (world : RemoteWorld)
    (repoPath branch target : String) (envVariables : List (String × String))
    (projectId : String) (log : List ApiAction) (res : DeployResult)
    (h : (deployAfterProject world repoPath branch target envVariables
      projectId log).1 = Except.ok res) : res.projectId = projectId := by
  unfold deployAfterProject at h
  dsimp only at h
  split at h
  · split at h
    · exact absurd h (by simp)
    · exact deployRepoAndCreate_ok world repoPath branch target projectId _ res h
  · exact deployRepoAndCreate_ok world repoPath branch target projectId log res h

/-- C6: `deployFromGitHub` resolves the target project as the first
explicitly selected project of the integration configuration when one
exists (without listing the account's projects); otherwise it lists the
account's projects and uses the first; and when that list is empty it
fails with `No projects found in the account` before any
environment-variable or deployment-creation call is issued. -/
theorem deployFromGitHub_project_resolution (world : RemoteWorld)
    (configurationId repo branch : String)
    (envVariables : List (String × String)) (target : String) :
    (∀ p ps, world.config.projects = some (p :: ps) →
      (∀ a ∈ (deployFromGitHub world configurationId repo branch envVariables
          target).2,
        actionProjectId a = none ∨ actionProjectId a = some p) ∧
      ApiAction.getProjects ∉ (deployFromGitHub world configurationId repo
        branch envVariables target).2 ∧
      (∀ res, (deployFromGitHub world configurationId repo branch envVariables
          target).1 = Except.ok res → res.projectId = p)) ∧
    ((world.config.projects = none ∨ world.config.projects = some []) →
      ∀ q qs, world.projects = q :: qs →
      (∀ a ∈ (deployFromGitHub world configurationId repo branch envVariables
          target).2,
        actionProjectId a = none ∨ actionProjectId a = some q.id) ∧
      (∀ res, (deployFromGitHub world configurationId repo branch envVariables
          target).1 = Except.ok res → res.projectId = q.id)) ∧
    ((world.config.projects = none ∨ world.config.projects = some []) →
      world.projects = [] →
      (deployFromGitHub world configurationId repo branch envVariables
          target).1 =
        Except.error (.errMsg "No projects found in the account") ∧
      ∀ a ∈ (deployFromGitHub world configurationId repo branch envVariables
          target).2, actionProjectId a = none) := by
  refine ⟨?_, ?_, ?_⟩
  · intro p ps hcfg
    have hunfold : deployFromGitHub world configurationId repo branch
        envVariables target =
        deployAfterProject world
          (if repo.startsWith "https://github.com/" then
            repo.drop "https://github.com/".length else repo)
          branch target envVariables p
          [ApiAction.getConfiguration configurationId] := by
      unfold deployFromGitHub
      rw [hcfg]
    refine ⟨?_, ?_, ?_⟩
    · intro a ha
      rw [hunfold] at ha
      rcases deployAfterProject_actions _ _ _ _ _ _ _ a ha with h | h
      · left
        have := List.mem_singleton.mp h
        subst this
        rfl
      · exact Or.inr h
    · intro hmem
      rw [hunfold] at hmem
      rcases deployAfterProject_actions _ _ _ _ _ _ _ _ hmem with h | h
      · exact absurd (List.mem_singleton.mp h) (by simp)
      · exact absurd h (by simp [actionProjectId])
    · intro res hres
      rw [hunfold] at hres
      exact deployAfterProject_ok _ _ _ _ _ _ _ _ hres
  · intro hcfg q qs hproj
    have hunfold : deployFromGitHub world configurationId repo branch
        envVariables target =
        deployAfterProject world
          (if repo.startsWith "https://github.com/" then
            repo.drop "https://github.com/".length else repo)
          branch target envVariables q.id
          [ApiAction.getConfiguration configurationId,
            ApiAction.getProjects] := by
      unfold deployFromGitHub
      rcases hcfg with h | h <;> rw [h, hproj]
    refine ⟨?_, ?_⟩
    · intro a ha
      rw [hunfold] at ha
      rcases deployAfterProject_actions _ _ _ _ _ _ _ a ha with h | h
      · left
        rcases List.mem_cons.mp h with rfl | h2
        · rfl
        · have := List.mem_singleton.mp h2
          subst this
          rfl
      · exact Or.inr h
    · intro res hres
      rw [hunfold] at hres
      exact deployAfterProject_ok _ _ _ _ _ _ _ _ hres
  · intro hcfg hproj
    have hunfold : deployFromGitHub world configurationId repo branch
        envVariables target =
        (Except.error (.errMsg "No projects found in the account"),
          [ApiAction.getConfiguration configurationId,
            ApiAction.getProjects]) := by
      unfold deployFromGitHub
      rcases hcfg with h | h <;> rw [h, hproj]
    rw [hunfold]
    refine ⟨rfl, ?_⟩
    intro a ha
    rcases List.mem_cons.mp ha with rfl | h2
    · rfl
    · have := List.mem_singleton.mp h2
      subst this
      rfl

/-- Witness for C6: an account with no integration-selected projects and
an empty project list fails with the documented error and performs only
the two read calls. -/
theorem deployFromGitHub_project_resolution_witness :
    (({ } : VercelIntegrationConfiguration).projects = none ∨
      ({ } : VercelIntegrationConfiguration).projects = some []) ∧
    (deployFromGitHub
        { config := { }, projects := [], envOutcome := fun _ => none,
          envRepoId := none, githubRepo := Except.error (),
          deployOutcome := Except.error { } }
        "cfg1" "your-org/assistant-server" "main" [] "production").1 =
      Except.error (.errMsg "No projects found in the account") :=
  ⟨Or.inl rfl,
    ((deployFromGitHub_project_resolution
      { config := { }, projects := [], envOutcome := fun _ => none,
        envRepoId := none, githubRepo := Except.error (),
        deployOutcome := Except.error { } }
      "cfg1" "your-org/assistant-server" "main" [] "production").2.2
      (Or.inl rfl) rfl).1⟩

/-! ## C7 — decryption failure behaves as a missing token -/

/-- Concrete rows for route-level witnesses. -/
def wInst : InstallationRow :=
  { uuid := "u1", installation_id := "cfg1", account_id := 1 }

/-- The account row the witness store holds. -/
def wAcct : AccountRow :=
  { id := 1, access_token := "opaque-ciphertext" }

/-- A store holding one account and one installation. -/
def wStore : Store :=
  { accounts := [wAcct], installations := [wInst] }

/-- C7: when the stored token fails to decrypt, `getDecryptedToken`
returns `null` (the exception is caught, never propagated) and the deploy
endpoint answers with the same 404 `Access token not found` response as
for a missing token; any decryption outcome that yields no token produces
the identical response. -/
theorem deployPOST_decrypt_failure_is_token_not_found
    (store : Store) (dec : String → Option String) (world : RemoteWorld)
    (defaultRepo configurationId : String) (cfg : DeployConfig)
    (migrationSecretKey jwtSecret : String)
    (inst : InstallationRow) (acct : AccountRow)
    (hinst : getInstallationById store configurationId = some inst)
    (hacct : getAccountById store inst.account_id = some acct)
    (hdec : dec acct.access_token = none) :
    getDecryptedToken dec store inst.account_id = none ∧
    deployPOST store dec world defaultRepo configurationId cfg
      migrationSecretKey jwtSecret = (accessTokenNotFoundResponse, []) ∧
    (∀ dec2 : String → Option String,
      getDecryptedToken dec2 store inst.account_id = none →
      deployPOST store dec2 world defaultRepo configurationId cfg
        migrationSecretKey jwtSecret =
      deployPOST store dec world defaultRepo configurationId cfg
        migrationSecretKey jwtSecret) := by
  have htok : getDecryptedToken dec store inst.account_id = none := by
    unfold getDecryptedToken
    rw [hacct]
    exact hdec
  have hpost : deployPOST store dec world defaultRepo configurationId cfg
      migrationSecretKey jwtSecret = (accessTokenNotFoundResponse, []) := by
    unfold deployPOST
    rw [hinst]
    dsimp only
    rw [hacct]
    dsimp only
    rw [htok]
    rfl
  refine ⟨htok, hpost, ?_⟩
  intro dec2 h2
  have hpost2 : deployPOST store dec2 world defaultRepo configurationId cfg
      migrationSecretKey jwtSecret = (accessTokenNotFoundResponse, []) := by
    unfold deployPOST
    rw [hinst]
    dsimp only
    rw [hacct]
    dsimp only
    rw [h2]
    rfl
  rw [hpost, hpost2]

/-- Witness for C7: a decrypt that always throws yields the 404
`Access token not found` response on a store that does hold a token. -/
theorem deployPOST_decrypt_failure_witness :
    getInstallationById wStore "cfg1" = some wInst ∧
    getAccountById wStore wInst.account_id = some wAcct ∧
    ((fun _ => none) : String → Option String) wAcct.access_token = none ∧
    getDecryptedToken (fun _ => none) wStore wInst.account_id = none ∧
    deployPOST wStore (fun _ => none)
      { config := { }, projects := [], envOutcome := fun _ => none,
        envRepoId := none, githubRepo := Except.error (),
        deployOutcome := Except.error { } }
      "your-org/assistant-server" "cfg1"
      { supabaseUrl := "https://s.supabase.co", supabaseServiceRoleKey := "k",
        dbHost := "h", dbName := "n", dbUser := "u", dbPassword := "p",
        openaiApiKey := "o" } "m-uuid" "j-uuid" =
      (accessTokenNotFoundResponse, []) := by
  have h := deployPOST_decrypt_failure_is_token_not_found wStore (fun _ => none)
    { config := { }, projects := [], envOutcome := fun _ => none,
      envRepoId := none, githubRepo := Except.error (),
      deployOutcome := Except.error { } }
    "your-org/assistant-server" "cfg1"
    { supabaseUrl := "https://s.supabase.co", supabaseServiceRoleKey := "k",
      dbHost := "h", dbName := "n", dbUser := "u", dbPassword := "p",
      openaiApiKey := "o" } "m-uuid" "j-uuid" wInst wAcct rfl rfl rfl
  exact ⟨rfl, rfl, rfl, h.1, h.2.1⟩

/-! ## C8 — upstream-error message extraction in the deploy route -/

/-- C8 counterexample: an upstream 401 whose body carries an extractable
message (`Invalid token`) is answered 500 with the fixed authentication
message, not with the message extracted from the body — the
status-specific overrides run after the shape-based extraction. -/
theorem deployAxiosErrorResponse_401_overrides_extraction :
    deployAxiosErrorResponse wErr401 =
      { status := 500, error := some "Deployment failed",
        message := some ("Authentication failed. Please reinstall the " ++
          "integration and try again.") } ∧
    extractDeployErrorMessage wErr401.data = "Vercel API error: Invalid token" ∧
    (deployAxiosErrorResponse wErr401).message ≠
      some (extractDeployErrorMessage wErr401.data) :=
  ⟨rfl, rfl, by decide⟩

/-- C8 (amended): an upstream error carrying a response is answered 500
with `error: Deployment failed`; the message is extracted from the body
by probing the known shapes in priority order — plain string body, then
`.message`, then `.error` (string or object, including its nested
`.error.message`), then `.error_description`, then the `.errors` array —
except that statuses 401/403/404 yield fixed messages, 409 (or 400 with
`ENV_CONFLICT`) may substitute a generic conflict message, and a generic
status-naming fallback covers bodies matching no shape. -/
theorem deployAxiosErrorResponse_extracts_in_priority_order (e : VercelErr)
    (h401 : e.status ≠ some 401) (h403 : e.status ≠ some 403)
    (h404 : e.status ≠ some 404) (h409 : e.status ≠ some 409)
    (hconf : ¬(e.status = some 400 ∧
      respDataErrorCode e.data = some "ENV_CONFLICT"))
    (hex : extractDeployErrorMessage e.data ≠ deployDefaultErrorMessage) :
    (deployAxiosErrorResponse e =
      { status := 500, error := some "Deployment failed",
        message := some (extractDeployErrorMessage e.data) }) ∧
    (∀ s : String, s ≠ "" →
      extractDeployErrorMessage (some (.rstr s)) = "Vercel API error: " ++ s) ∧
    (∀ d : ErrData, truthy d.message = true →
      extractDeployErrorMessage (some (.robj d)) =
        "Vercel API error: " ++ d.message.getD "") ∧
    (∀ (d : ErrData) (s : String), truthy d.message = false →
      d.error = some (.dstr s) → s ≠ "" →
      extractDeployErrorMessage (some (.robj d)) = "Vercel API error: " ++ s) ∧
    (∀ (d : ErrData) (m : Option String) (i : Option InnerError)
        (c : Option String), truthy d.message = false →
      d.error = some (.dobj m i c) → truthy m = true →
      extractDeployErrorMessage (some (.robj d)) = m.getD "") ∧
    (∀ (d : ErrData) (m im : Option String) (c : Option String),
      truthy d.message = false → d.error = some (.dobj m (some (.iobj im)) c) →
      truthy m = false → truthy im = true →
      extractDeployErrorMessage (some (.robj d)) = im.getD "") ∧
    (∀ d : ErrData, truthy d.message = false → dataErrorTruthy d.error = false →
      truthy d.errorDescription = true →
      extractDeployErrorMessage (some (.robj d)) =
        "Vercel API error: " ++ d.errorDescription.getD "") ∧
    (∀ (d : ErrData) (x : RErrItem) (xs : List RErrItem),
      truthy d.message = false → dataErrorTruthy d.error = false →
      truthy d.errorDescription = false → d.errors = some (x :: xs) →
      extractDeployErrorMessage (some (.robj d)) =
        "Vercel API error: " ++ String.intercalate ", "
          (((x :: xs).map errItemText).filter (· ≠ ""))) := by
  refine ⟨?_, ?_, ?_, ?_, ?_, ?_, ?_, ?_⟩
  · unfold deployAxiosErrorResponse deployErrorMessage
    rw [if_neg (by simp [h401]), if_neg (by simp [h403]),
      if_neg (by simp [h404])]
    rw [if_neg (by
      simp only [Bool.or_eq_true, Bool.and_eq_true, beq_iff_eq]
      push_neg
      exact ⟨h409, fun h1 h2 => hconf ⟨h1, h2⟩⟩)]
    rw [if_neg (by
      simp only [Bool.and_eq_true, beq_iff_eq]
      rintro ⟨-, h⟩
      exact hex h)]
  · intro s hs
    unfold extractDeployErrorMessage
    dsimp only
    rw [if_pos hs]
  · intro d hm
    unfold extractDeployErrorMessage
    dsimp only
    rw [if_pos hm]
  · intro d s hm herr hs
    unfold extractDeployErrorMessage
    dsimp only
    rw [if_neg (by simp [hm])]
    rw [if_pos (by simp [dataErrorTruthy, herr, hs])]
    rw [herr]
  · intro d m i c hm herr htm
    unfold extractDeployErrorMessage
    dsimp only
    rw [if_neg (by simp [hm])]
    rw [if_pos (by simp [dataErrorTruthy, herr])]
    rw [herr]
    dsimp only
    unfold extractFromErrorObj
    rw [if_pos htm]
  · intro d m im c hm herr htm htim
    unfold extractDeployErrorMessage
    dsimp only
    rw [if_neg (by simp [hm])]
    rw [if_pos (by simp [dataErrorTruthy, herr])]
    rw [herr]
    dsimp only
    unfold extractFromErrorObj
    rw [if_neg (by simp [htm])]
    dsimp only
    rw [if_pos htim]
  · intro d hm herr hdesc
    unfold extractDeployErrorMessage
    dsimp only
    rw [if_neg (by simp [hm]), if_neg (by simp [herr]), if_pos hdesc]
  · intro d x xs hm herr hdesc herrs
    unfold extractDeployErrorMessage
    dsimp only
    rw [if_neg (by simp [hm]), if_neg (by simp [herr]),
      if_neg (by simp [hdesc]), if_pos (by simp [herrs]), herrs]
    rfl

/-- Witness for C8 (amended): an upstream 500 whose body carries a
`.message` field is answered 500 with the message extracted from it. -/
theorem deployAxiosErrorResponse_extracts_witness :
    (wMsgErr "boom").status ≠ some 401 ∧
    (wMsgErr "boom").status ≠ some 409 ∧
    extractDeployErrorMessage (wMsgErr "boom").data ≠ deployDefaultErrorMessage ∧
    deployAxiosErrorResponse (wMsgErr "boom") =
      { status := 500, error := some "Deployment failed",
        message := some (extractDeployErrorMessage (wMsgErr "boom").data) } :=
  ⟨by decide, by decide, by decide,
    (deployAxiosErrorResponse_extracts_in_priority_order (wMsgErr "boom")
      (by decide) (by decide) (by decide) (by decide) (by decide) (by decide)).1⟩

/-! ## C10 — the migration secret returned is the one submitted -/

lemma deployRepoAndCreate_eq_repoFail (world : RemoteWorld)
    (repoPath branch target projectId : String) (log : List ApiAction)
    (m : String)
    (hg : getGitHubRepoId world.envRepoId world.githubRepo repoPath =
      Except.error m) :
    deployRepoAndCreate world repoPath branch target projectId log =
      (Except.error (.errMsg m), log) := by
  unfold deployRepoAndCreate
  rw [hg]

lemma deployRepoAndCreate_eq_deployFail (world : RemoteWorld)
    (repoPath branch target projectId : String) (log : List ApiAction)
    (rid : String) (e : VercelErr)
    (hg : getGitHubRepoId world.envRepoId world.githubRepo repoPath =
      Except.ok rid)
    (hd : world.deployOutcome = Except.error e) :
    deployRepoAndCreate world repoPath branch target projectId log =
      (Except.error (.apiErr e), log ++ [ApiAction.createDeployment projectId
        rid ("refs/heads/" ++ branch) target]) := by
  unfold deployRepoAndCreate
  rw [hg]
  dsimp only
  rw [hd]

lemma deployRepoAndCreate_eq_ok (world : RemoteWorld)
    (repoPath branch target projectId : String) (log : List ApiAction)
    (rid : String) (d : DeploymentData)
    (hg : getGitHubRepoId world.envRepoId world.githubRepo repoPath =
      Except.ok rid)
    (hd : world.deployOutcome = Except.ok d) :
    deployRepoAndCreate world repoPath branch target projectId log =
      (Except.ok ⟨projectId, "assistant-server", d⟩,
        log ++ [ApiAction.createDeployment projectId rid
          ("refs/heads/" ++ branch) target]) := by
  unfold deployRepoAndCreate
  rw [hg]
  dsimp only
  rw [hd]

lemma deployRepoAndCreate_ok_actions (world : RemoteWorld)
    (repoPath branch target projectId : String) (log : List ApiAction)
    (res : DeployResult)
    (h : (deployRepoAndCreate world repoPath branch target projectId log).1 =
      Except.ok res) :
    ∃ rid, (deployRepoAndCreate world repoPath branch target projectId log).2 =
      log ++ [ApiAction.createDeployment projectId rid
        ("refs/heads/" ++ branch) target] := by
  cases hg : getGitHubRepoId world.envRepoId world.githubRepo repoPath with
  | error m =>
      rw [deployRepoAndCreate_eq_repoFail world repoPath branch target
        projectId log m hg] at h
      exact absurd h (by simp)
  | ok rid =>
      cases hd : world.deployOutcome with
      | error e =>
          rw [deployRepoAndCreate_eq_deployFail world repoPath branch target
            projectId log rid e hg hd] at h
          exact absurd h (by simp)
      | ok d =>
          rw [deployRepoAndCreate_eq_ok world repoPath branch target
            projectId log rid d hg hd]
          exact ⟨rid, rfl⟩

lemma deployAfterProject_eq_envFail (world : RemoteWorld)
    (repoPath branch target : String) (envVariables : List (String × String))
    (projectId : String) (log : List ApiAction) (m : String)
    (hlen : 0 < envVariables.length)
    (hr : (setEnvironmentVariables world.envOutcome projectId
      envVariables).1 = Except.error m) :
    deployAfterProject world repoPath branch target envVariables projectId
        log =
      (Except.error (.errMsg m),
        log ++ (setEnvironmentVariables world.envOutcome projectId
          envVariables).2) := by
  unfold deployAfterProject
  rw [if_pos hlen]
  dsimp only
  rw [hr]

lemma deployAfterProject_eq_envOk (world : RemoteWorld)
    (repoPath branch target : String) (envVariables : List (String × String))
    (projectId : String) (log : List ApiAction) (u : Unit)
    (hlen : 0 < envVariables.length)
    (hr : (setEnvironmentVariables world.envOutcome projectId
      envVariables).1 = Except.ok u) :
    deployAfterProject world repoPath branch target envVariables projectId
        log =
      deployRepoAndCreate world repoPath branch target projectId
        (log ++ (setEnvironmentVariables world.envOutcome projectId
          envVariables).2) := by
  unfold deployAfterProject
  rw [if_pos hlen]
  dsimp only
  rw [hr]

lemma deployAfterProject_ok_actions (world : RemoteWorld)
    (repoPath branch target : String) (envVariables : List (String × String))
    (projectId : String) (log : List ApiAction) (res : DeployResult)
    (hlen : 0 < envVariables.length)
    (h : (deployAfterProject world repoPath branch target envVariables
      projectId log).1 = Except.ok res) :
    ∃ rid, (deployAfterProject world repoPath branch target envVariables
        projectId log).2 =
      log ++ (mkEnvs envVariables).map (ApiAction.envCreate projectId) ++
        [ApiAction.createDeployment projectId rid
          ("refs/heads/" ++ branch) target] := by
  cases hr : (setEnvironmentVariables world.envOutcome projectId
      envVariables).1 with
  | error m =>
      rw [deployAfterProject_eq_envFail world repoPath branch target
        envVariables projectId log m hlen hr] at h
      exact absurd h (by simp)
  | ok u =>
      rw [deployAfterProject_eq_envOk world repoPath branch target
        envVariables projectId log u hlen hr] at h ⊢
      rcases deployRepoAndCreate_ok_actions world repoPath branch target
        projectId _ res h with ⟨rid, hact⟩
      refine ⟨rid, ?_⟩
      rw [hact, setEnvironmentVariables_actions]

lemma deployFromGitHub_eq_selected (world : RemoteWorld)
    (configurationId repo branch : String)
    (envVariables : List (String × String)) (target : String)
    (p : String) (ps : List String)
    (hc : world.config.projects = some (p :: ps)) :
    deployFromGitHub world configurationId repo branch envVariables target =
      deployAfterProject world
        (if repo.startsWith "https://github.com/" then
          repo.drop "https://github.com/".length else repo)
        branch target envVariables p
        [ApiAction.getConfiguration configurationId] := by
  unfold deployFromGitHub
  rw [hc]

lemma deployFromGitHub_eq_firstProject (world : RemoteWorld)
    (configurationId repo branch : String)
    (envVariables : List (String × String)) (target : String)
    (q : VercelProject) (qs : List VercelProject)
    (hc : world.config.projects = none ∨ world.config.projects = some [])
    (hp : world.projects = q :: qs) :
    deployFromGitHub world configurationId repo branch envVariables target =
      deployAfterProject world
        (if repo.startsWith "https://github.com/" then
          repo.drop "https://github.com/".length else repo)
        branch target envVariables q.id
        [ApiAction.getConfiguration configurationId,
          ApiAction.getProjects] := by
  unfold deployFromGitHub
  rcases hc with h | h <;> rw [h, hp]

lemma deployFromGitHub_ok_actions (world : RemoteWorld)
    (configurationId repo branch : String)
    (envVariables : List (String × String)) (target : String)
    (res : DeployResult)
    (hlen : 0 < envVariables.length)
    (hok : (deployFromGitHub world configurationId repo branch envVariables
      target).1 = Except.ok res) :
    ∃ (log0 : List ApiAction) (pid rid : String),
      (deployFromGitHub world configurationId repo branch envVariables
          target).2 =
        log0 ++ (mkEnvs envVariables).map (ApiAction.envCreate pid) ++
          [ApiAction.createDeployment pid rid
            ("refs/heads/" ++ branch) target] ∧
      (log0 = [ApiAction.getConfiguration configurationId] ∨
        log0 = [ApiAction.getConfiguration configurationId,
          ApiAction.getProjects]) := by
  cases hc : world.config.projects with
  | some l =>
      cases l with
      | cons p ps =>
          rw [deployFromGitHub_eq_selected world configurationId repo branch
            envVariables target p ps hc] at hok ⊢
          rcases deployAfterProject_ok_actions world _ branch target
            envVariables p _ res hlen hok with ⟨rid, hact⟩
          exact ⟨[ApiAction.getConfiguration configurationId], p, rid,
            hact, Or.inl rfl⟩
      | nil =>
          cases hp : world.projects with
          | nil =>
              exfalso
              have : deployFromGitHub world configurationId repo branch
                  envVariables target =
                  (Except.error (.errMsg "No projects found in the account"),
                    [ApiAction.getConfiguration configurationId,
                      ApiAction.getProjects]) := by
                unfold deployFromGitHub
                rw [hc, hp]
              rw [this] at hok
              exact absurd hok (by simp)
          | cons q qs =>
              rw [deployFromGitHub_eq_firstProject world configurationId repo
                branch envVariables target q qs (Or.inr hc) hp] at hok ⊢
              rcases deployAfterProject_ok_actions world _ branch target
                envVariables q.id _ res hlen hok with ⟨rid, hact⟩
              exact ⟨[ApiAction.getConfiguration configurationId,
                ApiAction.getProjects], q.id, rid, hact, Or.inr rfl⟩
  | none =>
      cases hp : world.projects with
      | nil =>
          exfalso
          have : deployFromGitHub world configurationId repo branch
              envVariables target =
              (Except.error (.errMsg "No projects found in the account"),
                [ApiAction.getConfiguration configurationId,
                  ApiAction.getProjects]) := by
            unfold deployFromGitHub
            rw [hc, hp]
          rw [this] at hok
          exact absurd hok (by simp)
      | cons q qs =>
          rw [deployFromGitHub_eq_firstProject world configurationId repo
            branch envVariables target q qs (Or.inl hc) hp] at hok ⊢
          rcases deployAfterProject_ok_actions world _ branch target
            envVariables q.id _ res hlen hok with ⟨rid, hact⟩
          exact ⟨[ApiAction.getConfiguration configurationId,
            ApiAction.getProjects], q.id, rid, hact, Or.inr rfl⟩

lemma envValuesFor_append (l1 l2 : List ApiAction) (k : String) :
    envValuesFor (l1 ++ l2) k = envValuesFor l1 k ++ envValuesFor l2 k := by
  simp [envValuesFor]

lemma envValuesFor_map_envCreate (vars : List (String × String))
    (pid k : String) :
    envValuesFor ((mkEnvs vars).map (ApiAction.envCreate pid)) k =
      (mkEnvs vars).filterMap
        (fun p => if p.key == k then some p.value else none) := by
  simp only [envValuesFor, List.filterMap_map]
  rfl

/-- C10: on a successful deploy request, the 200 response body's
`migrationSecretKey` is exactly the value submitted to the platform as
the `MIGRATION_SECRET_KEY` environment variable of that same request
(submitted exactly once); `JWT_SECRET` carries the second, independently
drawn value, and distinct draws yield distinct submitted values. -/
theorem deployPOST_migration_secret (store : Store)
    (dec : String → Option String) (world : RemoteWorld)
    (defaultRepo configurationId : String) (cfg : DeployConfig)
    (m j : String) (inst : InstallationRow) (acct : AccountRow)
    (res : DeployResult)
    (hinst : getInstallationById store configurationId = some inst)
    (hacct : getAccountById store inst.account_id = some acct)
    (htok : truthy (getDecryptedToken dec store inst.account_id) = true)
    (hdep : (deployFromGitHub world inst.installation_id defaultRepo "main"
      (deployEnvVariables cfg m j) "production").1 = Except.ok res) :
    ((deployPOST store dec world defaultRepo configurationId cfg m j).1.status
      = 200) ∧
    ((deployPOST store dec world defaultRepo configurationId cfg m
      j).1.migrationSecretKey = some m) ∧
    (envValuesFor (deployPOST store dec world defaultRepo configurationId cfg
      m j).2 "MIGRATION_SECRET_KEY" = [m]) ∧
    (envValuesFor (deployPOST store dec world defaultRepo configurationId cfg
      m j).2 "JWT_SECRET" = [j]) ∧
    (m ≠ j →
      envValuesFor (deployPOST store dec world defaultRepo configurationId cfg
        m j).2 "MIGRATION_SECRET_KEY" ≠
      envValuesFor (deployPOST store dec world defaultRepo configurationId cfg
        m j).2 "JWT_SECRET") := by
  have hpost : deployPOST store dec world defaultRepo configurationId cfg m j =
      ({ status := 200, success := some true,
         deploymentId := some res.deployment.id,
         deploymentUrl := some res.deployment.url,
         projectName := some res.projectName,
         migrationSecretKey := some m },
       (deployFromGitHub world inst.installation_id defaultRepo "main"
         (deployEnvVariables cfg m j) "production").2) := by
    unfold deployPOST
    rw [hinst]
    dsimp only
    rw [hacct]
    dsimp only
    rw [if_pos htok]
    rw [hdep]
  have hlen : 0 < (deployEnvVariables cfg m j).length := by
    simp [deployEnvVariables]
  rcases deployFromGitHub_ok_actions world inst.installation_id defaultRepo
    "main" (deployEnvVariables cfg m j) "production" res hlen hdep with
    ⟨log0, pid, rid, hacts, hlog0⟩
  have hlog0m : ∀ k, envValuesFor log0 k = [] := by
    intro k
    rcases hlog0 with rfl | rfl <;> rfl
  have hmig : envValuesFor (deployPOST store dec world defaultRepo
      configurationId cfg m j).2 "MIGRATION_SECRET_KEY" = [m] := by
    rw [hpost]
    dsimp only
    rw [hacts, envValuesFor_append, envValuesFor_append, hlog0m,
      envValuesFor_map_envCreate]
    rfl
  have hjwt : envValuesFor (deployPOST store dec world defaultRepo
      configurationId cfg m j).2 "JWT_SECRET" = [j] := by
    rw [hpost]
    dsimp only
    rw [hacts, envValuesFor_append, envValuesFor_append, hlog0m,
      envValuesFor_map_envCreate]
    rfl
  refine ⟨by rw [hpost], by rw [hpost], hmig, hjwt, ?_⟩
  intro hmj heq
  rw [hmig, hjwt] at heq
  exact hmj (by simpa using heq)

/-- The remote world of the C10 witness: one selected project, every
remote call succeeding. -/
def wWorldOk : RemoteWorld :=
  { config := { projects := some ["prj1"] }, projects := [],
    envOutcome := fun _ => none, envRepoId := some "123",
    githubRepo := Except.error (),
    deployOutcome := Except.ok { id := "dep1", url := "https://d.vercel.app" } }

/-- The request configuration of the C10 witness. -/
def wCfg : DeployConfig :=
  { supabaseUrl := "https://s.supabase.co", supabaseServiceRoleKey := "sk",
    dbHost := "h", dbName := "n", dbUser := "u", dbPassword := "pw",
    openaiApiKey := "oa" }

/-- Witness for C10: a fully successful concrete deployment returns the
generated migration secret and submitted it once. -/
theorem deployPOST_migration_secret_witness :
    getInstallationById wStore "cfg1" = some wInst ∧
    getAccountById wStore wInst.account_id = some wAcct ∧
    truthy (getDecryptedToken (fun _ => some "tok") wStore
      wInst.account_id) = true ∧
    (deployFromGitHub wWorldOk wInst.installation_id
      "your-org/assistant-server" "main"
      (deployEnvVariables wCfg "m-uuid" "j-uuid") "production").1 =
      Except.ok ⟨"prj1", "assistant-server",
        { id := "dep1", url := "https://d.vercel.app" }⟩ ∧
    (deployPOST wStore (fun _ => some "tok") wWorldOk
      "your-org/assistant-server" "cfg1" wCfg "m-uuid"
      "j-uuid").1.migrationSecretKey = some "m-uuid" ∧
    envValuesFor (deployPOST wStore (fun _ => some "tok") wWorldOk
      "your-org/assistant-server" "cfg1" wCfg "m-uuid" "j-uuid").2
      "MIGRATION_SECRET_KEY" = ["m-uuid"] :=
  ⟨rfl, rfl, rfl, rfl,
    (deployPOST_migration_secret wStore (fun _ => some "tok") wWorldOk
      "your-org/assistant-server" "cfg1" wCfg "m-uuid" "j-uuid" wInst wAcct
      ⟨"prj1", "assistant-server", { id := "dep1", url := "https://d.vercel.app" }⟩
      rfl rfl rfl rfl).2.1,
    (deployPOST_migration_secret wStore (fun _ => some "tok") wWorldOk
      "your-org/assistant-server" "cfg1" wCfg "m-uuid" "j-uuid" wInst wAcct
      ⟨"prj1", "assistant-server", { id := "dep1", url := "https://d.vercel.app" }⟩
      rfl rfl rfl rfl).2.2.1⟩
